import Mathlib

/-!
Verification of the data-normalization and comparison core of the
Bank-Dashboard repository (modules/normalizer.py, modules/comparator.py,
modules/validator.py, modules/utils.py, configs/schemas.py,
configs/field_mappings.py).

The Python code is shallowly embedded:

* Python strings are `List Char` (`PyStr`).
* Python values occurring in raw/canonical records (JSON-shaped data) are
  the inductive type `Value`: None, bool, int, float, str, dict.
* Python floats are modelled by `PyFloat`: a finite float is carried as the
  exact rational denoted by its decimal literal (binary rounding of IEEE-754
  is not modelled; none of the proved statements depends on it), together
  with the special values `inf`/`-inf`/`nan`.  String conversion `float(s)`
  saturates to infinity at 2^1024 as CPython does for out-of-range decimal
  literals (the exact rounding at the threshold is not modelled).
* Fallible Python operations (`int(..)`, `float(..)`) return
  `Except PyExn _`, and `try/except` blocks are modelled by matching on the
  error and re-raising the exceptions that the source does not catch.
* CPython builds `get_all_possible_field_names` from a `set`, whose
  iteration order is unspecified; the model fixes first-occurrence order.
  Only the `[:3]` excerpt inside issue message strings depends on this.
-/

namespace BankDash

/-- A Python string, as a list of characters. -/
abbrev PyStr := List Char

/-- The Python exceptions that the modelled code can raise. -/
inductive PyExn where
  | valueError
  | typeError
  | overflowError
  deriving DecidableEq, Repr

/-- A Python float: a finite value (exact rational denoted by its decimal
literal), an infinity, or a nan. -/
inductive PyFloat where
  | fin (q : ℚ)
  | inf (neg : Bool)
  | nan
  deriving DecidableEq, Repr

/-- A JSON-shaped Python value as it occurs in raw and normalized records. -/
inductive Value where
  | vNull
  | vBool (b : Bool)
  | vInt (n : ℤ)
  | vFloat (f : PyFloat)
  | vStr (s : PyStr)
  | vDict (entries : List (PyStr × Value))

/-! ## String helpers (Python `str` operations) -/

/-- `strStarts needle hay`: does `hay` start with `needle`? -/
def strStarts : PyStr → PyStr → Bool
  | [], _ => true
  | _ :: _, [] => false
  | c :: cs, h :: hs => c == h && strStarts cs hs

/-- Python's `needle in hay` substring test. -/
def strHas (needle : PyStr) : PyStr → Bool
  | [] => strStarts needle []
  | h :: hs => strStarts needle (h :: hs) || strHas needle hs

/-- `s.replace(c, '')` for a single character: removes every occurrence. -/
def delChar (c : Char) (s : PyStr) : PyStr := s.filter (fun a => a != c)

/-- `s.replace(c, d)` for single characters. -/
def swapChar (c d : Char) (s : PyStr) : PyStr :=
  s.map (fun a => if a == c then d else a)

/-- Python `str.replace(pat, rep)` for a non-empty pattern: left-to-right,
non-overlapping.  (The code never calls `replace` with an empty pattern;
on an empty pattern this model returns the string unchanged.) -/
def replaceSub (p r : PyStr) (s : PyStr) : PyStr :=
  match s with
  | [] => []
  | c :: tl =>
    if p.length != 0 && strStarts p (c :: tl) then
      r ++ replaceSub p r (List.drop (p.length - 1) tl)
    else
      c :: replaceSub p r tl
termination_by s.length
decreasing_by
  · simp only [List.length_cons, List.length_drop]; omega
  · simp only [List.length_cons]; omega

/-- The characters Python `str.strip()` removes (ASCII whitespace). -/
def isSpaceChar (c : Char) : Bool :=
  c == ' ' || c == '\t' || c == '\n' || c == '\x0d' || c == '\x0b' || c == '\x0c'

/-- Python `str.strip()`. -/
def pyStrip (s : PyStr) : PyStr :=
  ((s.dropWhile isSpaceChar).reverse.dropWhile isSpaceChar).reverse

/-- Lower-case one character, covering ASCII and the Cyrillic letters used
by the source (Python `str.lower()` restricted to the alphabets present). -/
def lowerChar (c : Char) : Char :=
  let n := c.toNat
  if 65 ≤ n && n ≤ 90 then Char.ofNat (n + 32)
  else if 1040 ≤ n && n ≤ 1071 then Char.ofNat (n + 32)
  else if n == 1025 then Char.ofNat 1105
  else c

/-- Python `str.lower()` over the alphabets used by the source. -/
def pyLower (s : PyStr) : PyStr := s.map lowerChar

/-- `s.split(sep)[0]`: the part of `s` before the first `sep` character. -/
def takeUntilChar (sep : Char) (s : PyStr) : PyStr :=
  s.takeWhile (fun c => c != sep)

/-- `sep.join xs`. -/
def joinWith (sep : PyStr) : List PyStr → PyStr
  | [] => []
  | [x] => x
  | x :: rest => x ++ sep ++ joinWith sep rest

/-! ## Numbers: `str(int)`, `float(str)`, `int(x)`, formatting -/

/-- Decimal digit character. -/
def digitChar (d : ℕ) : Char := Char.ofNat (48 + d)

/-- Decimal digits of `n`, most significant first (`fuel` bounds the
recursion depth; `fuel ≥ n` suffices). -/
def natDigitsAux : ℕ → ℕ → List Char
  | 0, _ => []
  | fuel + 1, n =>
    if n = 0 then [] else natDigitsAux fuel (n / 10) ++ [digitChar (n % 10)]

/-- Decimal representation of a natural number (Python `str(n)` for `n ≥ 0`). -/
def natRepr (n : ℕ) : PyStr :=
  if n = 0 then ['0'] else natDigitsAux n n

/-- Decimal representation of an integer (Python `str(n)`). -/
def intRepr (n : ℤ) : PyStr :=
  if n < 0 then '-' :: natRepr n.natAbs else natRepr n.natAbs

def isDigitChar (c : Char) : Bool := 48 ≤ c.toNat && c.toNat ≤ 57

def digitVal (c : Char) : ℕ := c.toNat - 48

/-- Value of a string of decimal digits. -/
def digitsVal (s : PyStr) : ℕ := s.foldl (fun a c => 10 * a + digitVal c) 0

/-!
Rational arithmetic is written with the explicit `mkRat`-based helpers
below (equal to the instance operations, see the `q…_eq` lemmas further
down) so that every definition evaluates by kernel reduction: the
arithmetic instances of `ℚ` are marked irreducible upstream.
-/

/-- Rational addition. -/
def qAdd (a b : ℚ) : ℚ :=
  mkRat (a.num * (b.den : ℤ) + b.num * (a.den : ℤ)) (a.den * b.den)

/-- Rational negation. -/
def qNeg (a : ℚ) : ℚ := mkRat (-a.num) a.den

/-- Rational subtraction. -/
def qSub (a b : ℚ) : ℚ := qAdd a (qNeg b)

/-- Rational multiplication. -/
def qMul (a b : ℚ) : ℚ := mkRat (a.num * b.num) (a.den * b.den)

/-- Division of a rational by a natural number. -/
def qDivNat (a : ℚ) (d : ℕ) : ℚ := mkRat a.num (a.den * d)

/-- Boolean `a ≤ b` on rationals. -/
def qLeB (a b : ℚ) : Bool := a.num * (b.den : ℤ) ≤ b.num * (a.den : ℤ)

/-- Boolean `a < b` on rationals. -/
def qLtB (a b : ℚ) : Bool := a.num * (b.den : ℤ) < b.num * (a.den : ℤ)

/-- CPython overflow threshold for `float(decimal-string)`: values whose
magnitude reaches 2^1024 convert to infinity (the rounding right at the
threshold is not modelled).  The literal is 2^1024, written out so that it
evaluates without exponentiation. -/
def floatMax : ℚ :=
  ((179769313486231590772930519078902473361797697894230657273430081157732675805500963132708477322407536021120113879871393357658789768814416622492847430639474124377767893424865485276302219601246094119453082952085005768838150682342462881473913110540827237163350510684586298239947245938479716304835356329624224137216 : ℕ) : ℚ)

/-- Clamp an exact rational to a Python float result. -/
def clampFloat (q : ℚ) : PyFloat :=
  if qLeB floatMax q then .inf false
  else if qLeB q (qNeg floatMax) then .inf true
  else .fin q

/-- Strip a leading sign: `(is-negative, remainder)`. -/
def splitSign (t : PyStr) : Bool × PyStr :=
  match t with
  | [] => (false, [])
  | c :: r =>
    if c == '-' then (true, r)
    else if c == '+' then (false, r)
    else (false, c :: r)

/-- Parse the body of a decimal literal (after sign): `digits[.digits]`,
`.digits` or `digits.`, with optional exponent `e±digits`.
Returns the denoted rational, or `none` if the literal is malformed. -/
def parseDecimalBody (s : PyStr) : Option ℚ :=
  let ip := s.takeWhile isDigitChar
  let rest := s.drop ip.length
  let core : Option (ℚ × PyStr) :=
    match rest with
    | [] => if ip.isEmpty then none else some ((digitsVal ip : ℚ), [])
    | c :: rest2 =>
      if c == '.' then
        let fp := rest2.takeWhile isDigitChar
        if ip.isEmpty && fp.isEmpty then none
        else some (qAdd (digitsVal ip : ℚ) (mkRat (digitsVal fp) (10 ^ fp.length)),
                   rest2.drop fp.length)
      else if ip.isEmpty then none else some ((digitsVal ip : ℚ), c :: rest2)
  match core with
  | none => none
  | some (m, after) =>
    match after with
    | [] => some m
    | e :: rest3 =>
      if e == 'e' || e == 'E' then
        let (negEx, ds) := splitSign rest3
        if ds.isEmpty || !(ds.all isDigitChar) then none
        else
          let ex := digitsVal ds
          -- exponents beyond ±400 already saturate / flush to zero for any
          -- mantissa the data can carry; clamp to keep the arithmetic small
          if negEx then
            if ex > 400 then some 0
            else some (qDivNat m (10 ^ ex))
          else
            if ex > 400 then some (if m = 0 then 0 else floatMax)
            else some (qMul m ((10 ^ ex : ℕ) : ℚ))
      else none

/-- Python `float(s)` on a string: strips whitespace, accepts an optional
sign, `inf`/`infinity`/`nan` (case-insensitively) or a decimal literal.
`none` models `ValueError`. -/
def pyFloatOfStr (s : PyStr) : Option PyFloat :=
  let t := pyStrip s
  let sp := splitSign t
  let neg := sp.1
  let body := sp.2
  let low := pyLower body
  if low == "inf".toList || low == "infinity".toList then some (.inf neg)
  else if low == "nan".toList then some .nan
  else
    match parseDecimalBody body with
    | none => none
    | some q => some (clampFloat (if neg then qNeg q else q))

/-- Truncation of a rational toward zero (CPython `int(float)` on finite
values): `Int.tdiv` is T-division, which truncates toward zero. -/
def ratTrunc (q : ℚ) : ℤ := Int.tdiv q.num (q.den : ℤ)

/-- `⌊q⌋` computed directly with floor division. -/
def ratFloor (q : ℚ) : ℤ := Int.fdiv q.num (q.den : ℤ)

/-- Python `int(f)` on a float: `OverflowError` on infinities, `ValueError`
on nan. -/
def pyIntOfFloat : PyFloat → Except PyExn ℤ
  | .fin q => .ok (ratTrunc q)
  | .inf _ => .error .overflowError
  | .nan => .error .valueError

/-- Python `int(s)` on a string: optional sign and decimal digits only. -/
def pyIntOfStr (s : PyStr) : Except PyExn ℤ :=
  let sp := splitSign (pyStrip s)
  let neg := sp.1
  let ds := sp.2
  if ds.isEmpty || !(ds.all isDigitChar) then .error .valueError
  else .ok (if neg then -(digitsVal ds : ℤ) else (digitsVal ds : ℤ))

/-! ## Python float rendering and arithmetic -/

/-- Decimal digits of `num/den` after the point, truncated at `fuel` places
(exact whenever the expansion terminates within `fuel` digits, which holds
for every value produced by the modelled code). -/
def fracDigits : ℕ → ℕ → ℕ → List Char
  | _, _, 0 => []
  | num, den, fuel + 1 =>
    if num = 0 then []
    else
      let d := (num * 10) / den
      digitChar d :: fracDigits (num * 10 % den) den fuel

/-- Rendering of a finite float value (Python `str(float)` / `repr`),
positional form.  (CPython switches to exponent form for very large
or very small magnitudes; that regime is not exercised by any statement
proved below.) -/
def finRepr (q : ℚ) : PyStr :=
  let sign : PyStr := if qLtB q 0 then ['-'] else []
  let a := if qLtB q 0 then qNeg q else q
  let ipart := natRepr (ratFloor a).natAbs
  let fracPart := qSub a ((ratFloor a : ℤ) : ℚ)
  let frac := fracDigits fracPart.num.natAbs fracPart.den 60
  sign ++ ipart ++ '.' :: (if frac.isEmpty then ['0'] else frac)

/-- Python `str(f)` for a float. -/
def pyFloatRepr : PyFloat → PyStr
  | .fin q => finRepr q
  | .inf neg => if neg then "-inf".toList else "inf".toList
  | .nan => "nan".toList

def pfNeg : PyFloat → PyFloat
  | .fin q => .fin (qNeg q)
  | .inf neg => .inf (!neg)
  | .nan => .nan

def pfAdd : PyFloat → PyFloat → PyFloat
  | .fin a, .fin b => .fin (qAdd a b)
  | .fin _, .inf n => .inf n
  | .inf n, .fin _ => .inf n
  | .inf a, .inf b => if a == b then .inf a else .nan
  | .nan, _ => .nan
  | _, .nan => .nan

def pfSub (a b : PyFloat) : PyFloat := pfAdd a (pfNeg b)

def pfAbs : PyFloat → PyFloat
  | .fin q => .fin (if qLtB q 0 then qNeg q else q)
  | .inf _ => .inf false
  | .nan => .nan

/-- Python `<` on floats (false whenever a nan is involved). -/
def pfLt : PyFloat → PyFloat → Bool
  | .fin a, .fin b => qLtB a b
  | .fin _, .inf n => !n
  | .inf n, .fin _ => n
  | .inf a, .inf b => a && !b
  | .nan, _ => false
  | _, .nan => false

def pfGt (a b : PyFloat) : Bool := pfLt b a

/-- Python truthiness of a float (`0.0` is falsy; `inf` and `nan` truthy). -/
def pfTruthy : PyFloat → Bool
  | .fin q => q != 0
  | .inf _ => true
  | .nan => true

/-- Python `==` on floats (`nan` equals nothing). -/
def pfEq : PyFloat → PyFloat → Bool
  | .fin a, .fin b => a == b
  | .inf a, .inf b => a == b
  | _, _ => false

/-- Round half to even at a scale of 1 (used by `format(x, '.1f')` and
`'.0f'`). -/
def roundHalfEven (t : ℚ) : ℤ :=
  let f := ratFloor t
  let r := qSub t ((f : ℤ) : ℚ)
  if qLtB r (mkRat 1 2) then f
  else if qLtB (mkRat 1 2) r then f + 1
  else if f % 2 = 0 then f else f + 1

/-- Python `f"{x:.1f}"`. -/
def fmtF1 : PyFloat → PyStr
  | .fin q =>
    let n := roundHalfEven (qMul q 10)
    let sign : PyStr := if n < 0 then ['-'] else []
    sign ++ natRepr (n.natAbs / 10) ++ '.' :: [digitChar (n.natAbs % 10)]
  | .inf neg => if neg then "-inf".toList else "inf".toList
  | .nan => "nan".toList

/-- Python `f"{x:.0f}"`. -/
def fmtF0 : PyFloat → PyStr
  | .fin q =>
    let n := roundHalfEven q
    let sign : PyStr := if n < 0 then ['-'] else []
    sign ++ natRepr n.natAbs
  | .inf neg => if neg then "-inf".toList else "inf".toList
  | .nan => "nan".toList

/-- Group a reversed digit list in blocks of three, comma-separated
(`fuel` bounds the recursion; `fuel ≥ length` suffices). -/
def groupRevAux : ℕ → List Char → List Char
  | 0, l => l
  | fuel + 1, l =>
    if l.length ≤ 3 then l
    else l.take 3 ++ ',' :: groupRevAux fuel (l.drop 3)

/-- `f"{n:,}"` digit grouping of a natural number with commas. -/
def commaGroupNat (n : ℕ) : PyStr :=
  (groupRevAux (natRepr n).reverse.length (natRepr n).reverse).reverse

/-- Python `f"{n:,}"` for an integer. -/
def commaGroupInt (n : ℤ) : PyStr :=
  if n < 0 then '-' :: commaGroupNat n.natAbs else commaGroupNat n.natAbs

/-! ## Value helpers: `str()`, truthiness, `==`, dict access -/

mutual

/-- Python `repr(v)` (used for elements inside a dict's `str`).  String
values are shown in single quotes; the quote-escaping CPython applies to
strings that themselves contain quotes is not modelled. -/
def pyReprV : Value → PyStr
  | .vNull => "None".toList
  | .vBool b => if b then "True".toList else "False".toList
  | .vInt n => intRepr n
  | .vFloat f => pyFloatRepr f
  | .vStr s => '\'' :: s ++ ['\'']
  | .vDict es => "\x7b".toList ++ pyReprEntries es ++ "\x7d".toList

/-- `repr` of dict entries, comma-separated. -/
def pyReprEntries : List (PyStr × Value) → PyStr
  | [] => []
  | [(k, v)] => '\'' :: k ++ "': ".toList ++ pyReprV v
  | (k, v) :: rest =>
    '\'' :: k ++ "': ".toList ++ pyReprV v ++ ", ".toList ++ pyReprEntries rest

end

/-- Python `str(v)`. -/
def pyStrOf : Value → PyStr
  | .vStr s => s
  | v => pyReprV v

/-- Python truthiness of a value. -/
def pyTruthy : Value → Bool
  | .vNull => false
  | .vBool b => b
  | .vInt n => n != 0
  | .vFloat f => pfTruthy f
  | .vStr s => !s.isEmpty
  | .vDict es => !es.isEmpty

/-- The numeric content of a value, when Python treats it as a number for
`==` (bools count as 0/1). -/
def numVal : Value → Option PyFloat
  | .vBool b => some (.fin (if b then 1 else 0))
  | .vInt n => some (.fin n)
  | .vFloat f => some f
  | _ => none

mutual

/-- Python `==` on values: numeric kinds compare numerically (so
`True == 1` and `0 == 0.0`), strings compare as strings, other mixed kinds
are unequal.  Dict-against-dict comparison (never exercised by the code,
which only compares against string and number constants) is modelled
entrywise. -/
def pyEqV : Value → Value → Bool
  | .vNull, .vNull => true
  | .vStr a, .vStr b => a == b
  | .vDict a, .vDict b => pyEqEntries a b
  | a, b =>
    match numVal a, numVal b with
    | some x, some y => pfEq x y
    | _, _ => false

def pyEqEntries : List (PyStr × Value) → List (PyStr × Value) → Bool
  | [], [] => true
  | (k, v) :: r, (k2, v2) :: r2 => k == k2 && pyEqV v v2 && pyEqEntries r r2
  | _, _ => false

end

/-- Is the value a Python `str`? -/
def isStrV : Value → Bool
  | .vStr _ => true
  | _ => false

/-- A raw or normalized record: a Python dict keyed by strings
(insertion-ordered association list with distinct keys). -/
abbrev Record := List (PyStr × Value)

/-- Python `d[k]` / `k in d` lookup. -/
def recLookup (r : Record) (k : PyStr) : Option Value := List.lookup k r

/-- Python `k in d`. -/
def hasKey (r : Record) (k : PyStr) : Bool := (recLookup r k).isSome

/-- Python `d.get(k, default)`. -/
def pyGetD (r : Record) (k : PyStr) (d : Value) : Value :=
  (recLookup r k).getD d

/-- Python `d.get(k)`. -/
def pyGet (r : Record) (k : PyStr) : Value := pyGetD r k .vNull

/-- Keys of a record, in order. -/
def recKeys (r : Record) : List PyStr := r.map Prod.fst

/-! ## configs/field_mappings.py -/

/-- `CREDIT_CARD_FIELD_MAPPING`. -/
def CREDIT_CARD_FIELD_MAPPING : List (PyStr × PyStr) :=
  [("название".toList, "product_name".toList),
   ("ставка".toList, "interest_rate".toList),
   ("грейс_период".toList, "grace_period".toList),
   ("кешбек".toList, "cashback".toList),
   ("стоимость".toList, "annual_fee".toList),
   ("лимит".toList, "max_limit".toList),
   ("минимальный_платеж".toList, "min_payment".toList),
   ("карта".toList, "product_name".toList),
   ("кредитный_лимит".toList, "max_limit".toList),
   ("стоимость_обслуживания".toList, "annual_fee".toList),
   ("первоначальный_взнос".toList, "initial_payment".toList)]

/-- `DEBIT_CARD_FIELD_MAPPING`. -/
def DEBIT_CARD_FIELD_MAPPING : List (PyStr × PyStr) :=
  [("название".toList, "product_name".toList),
   ("стоимость".toList, "annual_fee".toList),
   ("смс".toList, "sms_notifications".toList),
   ("снятие_наличных".toList, "cash_withdrawal".toList),
   ("переводы".toList, "transfers".toList),
   ("процент".toList, "interest_rate".toList),
   ("кешбек".toList, "cashback".toList),
   ("программа_лояльности".toList, "loyalty_program".toList),
   ("возраст".toList, "age_requirement".toList),
   ("бонусы".toList, "bonuses".toList),
   ("карта".toList, "product_name".toList),
   ("стоимость_обслуживания".toList, "annual_fee".toList),
   ("смс_уведомления".toList, "sms_notifications".toList),
   ("снятие_наличных_чужие_банки".toList, "cash_withdrawal_other_banks".toList),
   ("переводы_по_реквизитам".toList, "transfers_by_details".toList),
   ("процент_на_остаток".toList, "interest_on_balance".toList)]

/-- `DEPOSIT_FIELD_MAPPING`. -/
def DEPOSIT_FIELD_MAPPING : List (PyStr × PyStr) :=
  [("название".toList, "product_name".toList),
   ("ставка".toList, "interest_rate".toList),
   ("срок".toList, "term_months".toList),
   ("минимальная_сумма".toList, "min_amount".toList),
   ("максимальная_сумма".toList, "max_amount".toList),
   ("пополнение".toList, "replenishment".toList),
   ("досрочное_снятие".toList, "early_withdrawal".toList),
   ("страхование".toList, "insurance".toList)]

/-- `CONSUMER_LOAN_FIELD_MAPPING`. -/
def CONSUMER_LOAN_FIELD_MAPPING : List (PyStr × PyStr) :=
  [("название".toList, "product_name".toList),
   ("ставка".toList, "interest_rate".toList),
   ("сумма".toList, "max_amount".toList),
   ("лимит".toList, "max_amount".toList),
   ("срок".toList, "term_months".toList),
   ("комиссия".toList, "commission".toList),
   ("время_одобрения".toList, "approval_time".toList)]

/-- `NESTED_FIELD_HANDLERS`. -/
def NESTED_FIELD_HANDLERS : List (PyStr × List (PyStr × PyStr)) :=
  [("снятие_наличных".toList,
    [("в_банке_до_1млн".toList, "cash_withdrawal_own_bank_under_1m".toList),
     ("в_банке_свыше_1млн".toList, "cash_withdrawal_own_bank_over_1m".toList),
     ("другие_банки".toList, "cash_withdrawal_other_banks".toList)]),
   ("переводы".toList,
    [("сбп_до_100к".toList, "transfers_sbp_under_100k".toList),
     ("сбп_свыше_100к".toList, "transfers_sbp_over_100k".toList),
     ("по_реквизитам".toList, "transfers_by_details".toList)]),
   ("грейс_период".toList,
    [("покупки".toList, "grace_period_purchases".toList),
     ("снятие_наличных".toList, "grace_period_cash".toList)])]

/-- `PRODUCT_TYPE_MAPPINGS`, in declaration order. -/
def PRODUCT_TYPE_MAPPINGS : List (PyStr × List (PyStr × PyStr)) :=
  [("credit_card".toList, CREDIT_CARD_FIELD_MAPPING),
   ("debit_card".toList, DEBIT_CARD_FIELD_MAPPING),
   ("deposit".toList, DEPOSIT_FIELD_MAPPING),
   ("consumer_loan".toList, CONSUMER_LOAN_FIELD_MAPPING)]

/-- `FIELD_ALIASES`. -/
def FIELD_ALIASES : List (PyStr × List PyStr) :=
  [("interest_rate".toList,
    ["ставка".toList, "процентная_ставка".toList, "процент_на_остаток".toList]),
   ("annual_fee".toList,
    ["стоимость".toList, "стоимость_обслуживания".toList, "годовое_обслуживание".toList]),
   ("product_name".toList,
    ["название".toList, "карта".toList, "название_продукта".toList]),
   ("max_limit".toList,
    ["лимит".toList, "кредитный_лимит".toList, "максимальный_лимит".toList]),
   ("grace_period".toList,
    ["грейс_период".toList, "льготный_период".toList]),
   ("cashback".toList,
    ["кешбек".toList, "кэшбэк".toList])]

/-- `get_mapping_for_product`. -/
def getMappingForProduct (pt : PyStr) : List (PyStr × PyStr) :=
  (List.lookup pt PRODUCT_TYPE_MAPPINGS).getD []

/-- Keep the first occurrence of each element, drop later duplicates
(elements already in `seen` are dropped). -/
def dedupFirstAux (seen : List PyStr) : List PyStr → List PyStr
  | [] => []
  | x :: r =>
    if seen.contains x then dedupFirstAux seen r
    else x :: dedupFirstAux (x :: seen) r

/-- Keep the first occurrence of each element, drop later duplicates. -/
def dedupFirst (l : List PyStr) : List PyStr := dedupFirstAux [] l

/-- `get_all_possible_field_names`: the declared aliases plus every source
key mapping to the field in any product mapping.  CPython collects these in
a `set`; the model fixes first-occurrence order (see the header note). -/
def getAllPossibleFieldNames (normalizedField : PyStr) : List PyStr :=
  dedupFirst
    (((List.lookup normalizedField FIELD_ALIASES).getD []) ++
      (PRODUCT_TYPE_MAPPINGS.map Prod.snd).flatMap
        (fun m => (m.filter (fun p => p.2 == normalizedField)).map Prod.fst))

/-! ## configs/schemas.py -/

/-- A product schema: the `type`, `fields` and `display_names` entries of
the schema dict.  (Each schema dict literal carries these three keys, so
the dict is never empty; `schemaDictEmpty` below reflects its Python
truthiness test.) -/
structure Schema where
  stype : PyStr
  fields : List PyStr
  display_names : List (PyStr × PyStr)
  deriving DecidableEq

/-- `CREDIT_CARD_SCHEMA` (display names omitted from the claims; kept for
completeness). -/
def CREDIT_CARD_SCHEMA : Schema :=
  { stype := "credit_card".toList
    fields := ["bank".toList, "product_name".toList, "interest_rate".toList,
               "grace_period".toList, "cashback".toList, "annual_fee".toList,
               "min_salary_requirement".toList, "max_limit".toList,
               "commission".toList]
    display_names :=
      [("bank".toList, "Банк".toList),
       ("product_name".toList, "Название продукта".toList),
       ("interest_rate".toList, "Процентная ставка".toList),
       ("grace_period".toList, "Льготный период".toList),
       ("cashback".toList, "Кешбак".toList),
       ("annual_fee".toList, "Годовое обслуживание".toList),
       ("min_salary_requirement".toList, "Мин. зарплата".toList),
       ("max_limit".toList, "Макс. лимит".toList),
       ("commission".toList, "Комиссия".toList)] }

/-- `DEPOSIT_SCHEMA`. -/
def DEPOSIT_SCHEMA : Schema :=
  { stype := "deposit".toList
    fields := ["bank".toList, "product_name".toList, "interest_rate".toList,
               "term_months".toList, "min_amount".toList, "max_amount".toList,
               "replenishment".toList, "early_withdrawal".toList,
               "insurance".toList]
    display_names :=
      [("bank".toList, "Банк".toList),
       ("product_name".toList, "Название продукта".toList),
       ("interest_rate".toList, "Процентная ставка".toList),
       ("term_months".toList, "Срок (месяцы)".toList),
       ("min_amount".toList, "Мин. сумма".toList),
       ("max_amount".toList, "Макс. сумма".toList),
       ("replenishment".toList, "Пополнение".toList),
       ("early_withdrawal".toList, "Ранний вывод".toList),
       ("insurance".toList, "Страховка".toList)] }

/-- `CONSUMER_LOAN_SCHEMA`. -/
def CONSUMER_LOAN_SCHEMA : Schema :=
  { stype := "consumer_loan".toList
    fields := ["bank".toList, "product_name".toList, "interest_rate".toList,
               "max_amount".toList, "term_months".toList, "commission".toList,
               "approval_time".toList, "min_score".toList]
    display_names :=
      [("bank".toList, "Банк".toList),
       ("product_name".toList, "Название продукта".toList),
       ("interest_rate".toList, "Процентная ставка".toList),
       ("max_amount".toList, "Макс. сумма".toList),
       ("term_months".toList, "Срок (месяцы)".toList),
       ("commission".toList, "Комиссия".toList),
       ("approval_time".toList, "Время одобрения".toList),
       ("min_score".toList, "Мин. score".toList)] }

/-- `SCHEMAS`. -/
def SCHEMAS : List (PyStr × Schema) :=
  [("credit_card".toList, CREDIT_CARD_SCHEMA),
   ("deposit".toList, DEPOSIT_SCHEMA),
   ("consumer_loan".toList, CONSUMER_LOAN_SCHEMA)]

/-- `get_schema`: `SCHEMAS.get(product_type, CREDIT_CARD_SCHEMA)`. -/
def getSchema (pt : PyStr) : Schema :=
  (List.lookup pt SCHEMAS).getD CREDIT_CARD_SCHEMA

/-- Python truthiness test `not schema` on the schema dict: every schema
literal carries the keys `type`, `fields` and `display_names`, so the dict
is non-empty and the test is always false. -/
def schemaDictEmpty (_ : Schema) : Bool := false

/-! ## modules/utils.py -/

/-- The sentinel string. -/
def sentinelS : PyStr := "Н/Д".toList

/-- `normalize_rate`: `float(str(s).replace('%','').strip())`, `None` on
empty input or parse failure (`ValueError`/`AttributeError` are caught). -/
def normalizeRate (s : PyStr) : Option PyFloat :=
  if s.isEmpty then none
  else pyFloatOfStr (pyStrip (delChar '%' s))

/-- Characters matched by the `[\d,\.]+` pattern of `extract_number`
(ASCII digits; the data contains no other Unicode digits). -/
def tokChar (c : Char) : Bool := isDigitChar c || c == ',' || c == '.'

/-- `extract_number`: first maximal `[\d,\.]+` token of the string,
converted by `float` after `,` → `.`; `ok none` when there is no token;
the `ValueError` of a malformed token (e.g. `"1.2.3"`) propagates. -/
def extractNumber (s : PyStr) : Except PyExn (Option PyFloat) :=
  let tok := (s.dropWhile (fun c => !tokChar c)).takeWhile tokChar
  if tok.isEmpty then .ok none
  else
    match pyFloatOfStr (swapChar ',' '.' tok) with
    | some f => .ok (some f)
    | none => .error .valueError

/-! ## modules/normalizer.py — formatting methods -/

/-- `int(x)` on a value (`TypeError` on `None` and dicts). -/
def pyIntV : Value → Except PyExn ℤ
  | .vNull => .error .typeError
  | .vBool b => .ok (if b then 1 else 0)
  | .vInt n => .ok n
  | .vFloat f => pyIntOfFloat f
  | .vStr s => pyIntOfStr s
  | .vDict _ => .error .typeError

/-- `isinstance(v, (int, float))` (bools are ints in Python). -/
def isNumType : Value → Bool
  | .vBool _ => true
  | .vInt _ => true
  | .vFloat _ => true
  | _ => false

/-- `DataNormalizer._format_rate`. -/
def formatRate (v : Value) : Except PyExn PyStr :=
  if (v matches .vNull) || pyEqV v (.vStr "Нет".toList) then .ok sentinelS
  else
    let vs := pyStrOf v
    if strHas "-".toList vs then .ok (delChar ' ' vs)
    else if strHas "до".toList (pyLower vs) || strHas "up to".toList (pyLower vs) then
      .ok vs
    else
      match normalizeRate vs with
      | some r => .ok (pyFloatRepr r ++ "%".toList)
      | none => .ok vs

/-- `DataNormalizer._format_period`.  The `int(...)` conversion is wrapped
in `except (ValueError, TypeError)`; an `OverflowError` (infinite float)
propagates. -/
def formatPeriod (v : Value) : Except PyExn PyStr :=
  if (v matches .vNull) || pyEqV v (.vStr sentinelS) then .ok sentinelS
  else
    let vs := pyStrOf v
    if strHas "дн".toList (pyLower vs) || strHas "day".toList (pyLower vs) then
      .ok vs
    else
      let att : Except PyExn ℤ := do
        let no ← extractNumber vs
        pyIntV (match no with
          | some f => if pfTruthy f then .vFloat f else v
          | none => v)
      match att with
      | .ok days => .ok (intRepr days ++ " дней".toList)
      | .error e =>
        if e == .valueError || e == .typeError then .ok vs else .error e

/-- `value * 100` for a float. -/
def pfMul100 : PyFloat → PyFloat
  | .fin q => .fin (qMul q 100)
  | .inf neg => .inf neg
  | .nan => .nan

/-- `DataNormalizer._format_cashback`. -/
def formatCashback (v : Value) : Except PyExn PyStr :=
  match v with
  | .vNull => .ok sentinelS
  | .vStr s => .ok s
  | .vFloat f => .ok ("до ".toList ++ fmtF0 (pfMul100 f) ++ "%".toList)
  | w => .ok (pyStrOf w)

/-- `DataNormalizer._format_fee`. -/
def formatFee (v : Value) : Except PyExn PyStr :=
  match v with
  | .vNull => .ok sentinelS
  | w =>
    let lowS := pyLower (pyStrOf w)
    if pyEqV w (.vInt 0) || strHas "бесплатно".toList lowS
        || strHas "free".toList lowS then
      .ok "0₽".toList
    else if strHas "₽".toList (pyStrOf w) then .ok (pyStrOf w)
    else if isNumType w then .ok (pyStrOf w ++ "₽".toList)
    else .ok (pyStrOf w)

/-- `DataNormalizer._format_amount`.  As in `_format_period`, only
`ValueError`/`TypeError` are caught around the `int(...)` conversion. -/
def formatAmount (v : Value) : Except PyExn PyStr :=
  match v with
  | .vNull => .ok sentinelS
  | w =>
    let vs := pyStrOf w
    if strHas "₽".toList vs || strHas "До".toList vs
        || strHas "до".toList (pyLower vs) then
      .ok vs
    else if strHas "-".toList vs && !strStarts "-".toList vs then
      .ok (delChar ' ' vs)
    else
      let att : Except PyExn ℤ := do
        let no ← extractNumber vs
        pyIntV (match no with
          | some f => if pfTruthy f then .vFloat f else w
          | none => w)
      match att with
      | .ok amount => .ok (swapChar ',' ' ' (commaGroupInt amount) ++ "₽".toList)
      | .error e =>
        if e == .valueError || e == .typeError then .ok vs else .error e

/-- `DataNormalizer._format_bool`. -/
def formatBool (v : Value) : Except PyExn PyStr :=
  match v with
  | .vBool b => .ok (if b then "Да".toList else "Нет".toList)
  | .vStr s =>
    let low := pyLower s
    if low == "true".toList || low == "да".toList || low == "yes".toList
        || low == "включены".toList then
      .ok "Да".toList
    else if low == "false".toList || low == "нет".toList || low == "no".toList then
      .ok "Нет".toList
    else .ok sentinelS
  | _ => .ok sentinelS

/-! ## modules/normalizer.py — field extraction and normalization -/

/-- `DataNormalizer._get_field_value`: first present alias.  Python returns
the `None` object both for a missing field and for a field holding `None`;
`vNull` models both. -/
def getFieldValue (data : Record) (aliases : List PyStr) : Value :=
  match aliases with
  | [] => .vNull
  | a :: rest => if hasKey data a then pyGet data a else getFieldValue data rest

/-- `DataNormalizer._get_product_name`. -/
def getProductName (d : Record) : PyStr :=
  let name := getFieldValue d ["название".toList, "карта".toList, "product_name".toList]
  if pyTruthy name then pyStrOf name else sentinelS

/-- `DataNormalizer._get_interest_rate`. -/
def getInterestRate (d : Record) : Except PyExn PyStr :=
  formatRate (getFieldValue d
    ["ставка".toList, "процент".toList, "процент_на_остаток".toList,
     "interest_rate".toList])

/-- `DataNormalizer._get_grace_period`. -/
def getGracePeriod (d : Record) : Except PyExn PyStr :=
  let grace := getFieldValue d ["грейс_период".toList, "grace_period".toList]
  match grace with
  | .vDict g =>
    formatPeriod (pyGetD g "покупки".toList
      (pyGetD g "purchases".toList (.vStr sentinelS)))
  | w => formatPeriod w

/-- `DataNormalizer._get_cashback`. -/
def getCashback (d : Record) : Except PyExn PyStr :=
  formatCashback (getFieldValue d ["кешбек".toList, "cashback".toList])

/-- `DataNormalizer._get_annual_fee`. -/
def getAnnualFee (d : Record) : Except PyExn PyStr :=
  formatFee (getFieldValue d
    ["стоимость".toList, "стоимость_обслуживания".toList, "annual_fee".toList])

/-- `DataNormalizer._get_max_limit`. -/
def getMaxLimit (d : Record) : Except PyExn PyStr :=
  formatAmount (getFieldValue d
    ["лимит".toList, "кредитный_лимит".toList, "максимальный_лимит".toList,
     "max_limit".toList])

/-- `DataNormalizer._get_min_payment`. -/
def getMinPayment (d : Record) : PyStr :=
  let m := getFieldValue d ["минимальный_платеж".toList, "min_payment".toList]
  if pyTruthy m then pyStrOf m else sentinelS

/-- `DataNormalizer._get_withdrawals`. -/
def getWithdrawals (d : Record) : PyStr :=
  let w := getFieldValue d ["снятие_наличных".toList, "withdrawals".toList]
  match w with
  | .vDict parts =>
    joinWith "; ".toList (parts.map (fun kv => kv.1 ++ ": ".toList ++ pyStrOf kv.2))
  | x => if pyTruthy x then pyStrOf x else sentinelS

/-- `DataNormalizer._get_transfers`. -/
def getTransfers (d : Record) : PyStr :=
  let t := getFieldValue d ["переводы".toList, "transfers".toList]
  match t with
  | .vDict parts =>
    joinWith "; ".toList (parts.map (fun kv => kv.1 ++ ": ".toList ++ pyStrOf kv.2))
  | x => if pyTruthy x then pyStrOf x else sentinelS

/-- An extraction function, as stored in the `field_extractors` dict. -/
abbrev Extractor := Record → Except PyExn Value

/-- Wrap a string-returning extraction method. -/
def strE (g : Record → Except PyExn PyStr) : Extractor :=
  fun d => (g d).map .vStr

/-- Wrap a total string-returning extraction method. -/
def pureS (g : Record → PyStr) : Extractor := fun d => .ok (.vStr (g d))

/-- A `lambda d: d.get(key, "Н/Д")` extractor. -/
def passE (key : PyStr) : Extractor :=
  fun d => .ok (pyGetD d key (.vStr sentinelS))

/-- One loop iteration of `_normalize_with_mapping`: the stored value is
the extracted one, with `None` results and caught exceptions replaced by
the sentinel. -/
def extractorResult (e : Extractor) (raw : Record) : Value :=
  match e raw with
  | .ok .vNull => .vStr sentinelS
  | .ok v => v
  | .error _ => .vStr sentinelS

/-- `DataNormalizer._normalize_with_mapping`: starts from
`{"bank": bank}`, then runs each extractor; `None` results and caught
exceptions become the sentinel. -/
def normalizeWithMapping (raw : Record) (bank : PyStr)
    (exts : List (PyStr × Extractor)) : Record :=
  ("bank".toList, Value.vStr bank) ::
    exts.map (fun ne => (ne.1, extractorResult ne.2 raw))

/-- The extractor table of `normalize_credit_card`, in source order. -/
def creditCardExtractors : List (PyStr × Extractor) :=
  [("product_name".toList, pureS getProductName),
   ("interest_rate".toList, strE getInterestRate),
   ("grace_period".toList, strE getGracePeriod),
   ("cashback".toList, strE getCashback),
   ("annual_fee".toList, strE getAnnualFee),
   ("max_limit".toList, strE getMaxLimit),
   ("min_payment".toList, pureS getMinPayment),
   ("min_salary_requirement".toList, passE "мин_зарплата".toList),
   ("commission".toList, passE "комиссия".toList)]

/-- `DataNormalizer.normalize_credit_card`. -/
def normalizeCreditCard (raw : Record) (bank : PyStr) : Record :=
  normalizeWithMapping raw bank creditCardExtractors

/-- The extractor table of `normalize_debit_card`, in source order. -/
def debitCardExtractors : List (PyStr × Extractor) :=
  [("product_name".toList, pureS getProductName),
   ("annual_fee".toList, strE getAnnualFee),
   ("interest_on_balance".toList, strE getInterestRate),
   ("cashback".toList, strE getCashback),
   ("loyalty_program".toList, passE "программа_лояльности".toList),
   ("sms_notifications".toList, passE "смс".toList),
   ("withdrawals".toList, pureS getWithdrawals),
   ("transfers".toList, pureS getTransfers),
   ("monthly_limit".toList, passE "лимит_месячный".toList)]

/-- `DataNormalizer.normalize_debit_card`. -/
def normalizeDebitCard (raw : Record) (bank : PyStr) : Record :=
  normalizeWithMapping raw bank debitCardExtractors

/-- The extractor table of `normalize_deposit`, in source order. -/
def depositExtractors : List (PyStr × Extractor) :=
  [("product_name".toList, pureS getProductName),
   ("interest_rate".toList, strE getInterestRate),
   ("term_months".toList, passE "срок".toList),
   ("min_amount".toList, passE "минимальная_сумма".toList),
   ("max_amount".toList, passE "максимальная_сумма".toList),
   ("replenishment".toList, passE "пополнение".toList),
   ("early_withdrawal".toList, passE "досрочное_снятие".toList),
   ("insurance".toList, passE "страхование".toList)]

/-- `DataNormalizer.normalize_deposit`. -/
def normalizeDeposit (raw : Record) (bank : PyStr) : Record :=
  normalizeWithMapping raw bank depositExtractors

/-- The extractor table of `normalize_consumer_loan`, in source order. -/
def consumerLoanExtractors : List (PyStr × Extractor) :=
  [("product_name".toList, pureS getProductName),
   ("interest_rate".toList, strE getInterestRate),
   ("max_amount".toList, strE getMaxLimit),
   ("term_months".toList, passE "срок".toList),
   ("commission".toList, passE "комиссия".toList),
   ("approval_time".toList, passE "время_одобрения".toList),
   ("min_score".toList, passE "мин_скор".toList)]

/-- `DataNormalizer.normalize_consumer_loan`. -/
def normalizeConsumerLoan (raw : Record) (bank : PyStr) : Record :=
  normalizeWithMapping raw bank consumerLoanExtractors

/-! ## modules/comparator.py -/

/-- `ProductComparator._extract_rate`: `None` for falsy values and the
sentinel; ranges keep only the part before the first `-`; then
`float(str.replace('%','').replace('₽','').strip())`, `None` on failure. -/
def extractRate (v : Value) : Option PyFloat :=
  if !pyTruthy v || pyEqV v (.vStr sentinelS) then none
  else
    let s := pyStrOf v
    let s := if strHas "-".toList s then takeUntilChar '-' s else s
    pyFloatOfStr (pyStrip (delChar '₽' (delChar '%' s)))

/-- `ProductComparator._generate_insights`. -/
def generateInsights (sber competitor : Record) (productType : PyStr) :
    List PyStr :=
  if productType == "credit_card".toList then
    let sberRate := extractRate (pyGet sber "interest_rate".toList)
    let compRate := extractRate (pyGet competitor "interest_rate".toList)
    match sberRate, compRate with
    | some sr, some cr =>
      if pfTruthy sr && pfTruthy cr then
        let diff := pfSub cr sr
        if pfLt (pfAbs diff) (.fin (mkRat 1 10)) then
          ["✓ Процентные ставки практически идентичны".toList]
        else if pfGt diff (.fin 0) then
          ["✓ Сбер выигрывает по ставке на ".toList ++ fmtF1 diff ++ "%".toList]
        else
          ["⚠️ Конкурент выигрывает по ставке на ".toList
            ++ fmtF1 (pfNeg diff) ++ "%".toList]
      else []
    | _, _ => []
  else if productType == "deposit".toList then
    let sberRate := extractRate (pyGet sber "interest_rate".toList)
    let compRate := extractRate (pyGet competitor "interest_rate".toList)
    match sberRate, compRate with
    | some sr, some cr =>
      if pfTruthy sr && pfTruthy cr then
        let diff := pfSub sr cr
        if pfGt diff (.fin 0) then
          ["✓ Сбер предлагает выше ставку на ".toList ++ fmtF1 diff ++ "%".toList]
        else if pfLt diff (.fin (mkRat (-1) 2)) then
          ["⚠️ Конкурент выигрывает по ставке на ".toList
            ++ fmtF1 (pfNeg diff) ++ "%".toList]
        else []
      else []
    | _, _ => []
  else []

/-- `ProductComparator._find_advantages`: advantages of `first` over
`second`. -/
def findAdvantages (first second : Record) (productType : PyStr) :
    List PyStr :=
  let rateAdv : List PyStr :=
    match extractRate (pyGet first "interest_rate".toList),
          extractRate (pyGet second "interest_rate".toList) with
    | some r1, some r2 =>
      (if productType == "credit_card".toList && pfLt r1 r2 then
        ["• Более низкая процентная ставка: ".toList
          ++ pyStrOf (pyGet first "interest_rate".toList)]
       else []) ++
      (if productType == "deposit".toList && pfGt r1 r2 then
        ["• Более высокая процентная ставка: ".toList
          ++ pyStrOf (pyGet first "interest_rate".toList)]
       else [])
    | _, _ => []
  let fee1S := delChar '₽' (pyStrOf (pyGetD first "annual_fee".toList (.vStr sentinelS)))
  let fee2S := delChar '₽' (pyStrOf (pyGetD second "annual_fee".toList (.vStr sentinelS)))
  let feeAdv : List PyStr :=
    match pyFloatOfStr fee1S, pyFloatOfStr fee2S with
    | some f1, some f2 =>
      if pfLt f1 f2 then
        ["• Более низкая стоимость обслуживания: ".toList
          ++ pyStrOf (pyGet first "annual_fee".toList)]
      else []
    | _, _ => []
  let advantages := rateAdv ++ feeAdv
  if advantages.isEmpty then ["Преимущества не найдены".toList] else advantages

/-- `ProductComparator._get_recommendation`. -/
def getRecommendation (sberAdvantages competitorAdvantages : List PyStr) :
    PyStr :=
  if sberAdvantages.length > competitorAdvantages.length then
    "Сбер имеет более конкурентное предложение".toList
  else if competitorAdvantages.length > sberAdvantages.length then
    "Конкурент имеет лучшие условия - рекомендуется пересмотреть".toList
  else
    "Условия примерно сопоставимы".toList

/-- The result dict of `compare_products`.  The pandas comparison
DataFrame is modelled as its rows (parameter, Sber value, competitor
value). -/
structure ComparisonResult where
  comparisonTable : List (PyStr × Value × Value)
  insights : List PyStr
  sberAdvantages : List PyStr
  competitorAdvantages : List PyStr
  recommendation : PyStr

/-- `ProductComparator.compare_products`. -/
def compareProducts (sberData competitorData : Record) (productType : PyStr) :
    ComparisonResult :=
  let sberAdv := findAdvantages sberData competitorData productType
  let compAdv := findAdvantages competitorData sberData productType
  { comparisonTable :=
      sberData.map (fun kv =>
        (kv.1, kv.2, pyGetD competitorData kv.1 (.vStr sentinelS)))
    insights := generateInsights sberData competitorData productType
    sberAdvantages := sberAdv
    competitorAdvantages := compAdv
    recommendation := getRecommendation sberAdv compAdv }

/-! ## modules/validator.py -/

/-- The keys of `NESTED_FIELD_HANDLERS`. -/
def nestedHandlerKeys : List PyStr := NESTED_FIELD_HANDLERS.map Prod.fst

/-- One step of the `_check_field_exists` loop: the name is a key of the
record, or a key of `NESTED_FIELD_HANDLERS` (regardless of the record). -/
def aliasHit (data : Record) (n : PyStr) : Bool :=
  hasKey data n || n ∈ nestedHandlerKeys

/-- `DataValidator._check_field_exists`: any possible name (declared
aliases, reverse-mapping sources, plus the product mapping's sources for
this field) that is a key of the record — or a key of
`NESTED_FIELD_HANDLERS`, regardless of the record. -/
def checkFieldExists (data : Record) (normalizedField : PyStr)
    (mapping : List (PyStr × PyStr)) : Bool :=
  let possibleNames := getAllPossibleFieldNames normalizedField ++
    (mapping.filter (fun p => p.2 == normalizedField)).map Prod.fst
  possibleNames.any (aliasHit data)

/-- The first name of the list present in the record, with its value. -/
def firstPresent (data : Record) : List PyStr → Option Value
  | [] => none
  | n :: rest => if hasKey data n then some (pyGet data n) else firstPresent data rest

/-- `DataValidator._get_field_value` (validator variant: only the
`get_all_possible_field_names` list, no mapping augmentation). -/
def validatorFieldValue (data : Record) (normalizedField : PyStr) :
    Option Value :=
  firstPresent data (getAllPossibleFieldNames normalizedField)

/-- The missing-field issue string for one field. -/
def missingFieldIssue (field bank : PyStr) : PyStr :=
  "❌ Missing required field '".toList ++ field ++ "' for ".toList ++ bank
    ++ ". Expected one of: ".toList
    ++ joinWith ", ".toList ((getAllPossibleFieldNames field).take 3)

/-- The required-field loop of `validate_product_data` (lines 52–64): one
issue per schema field, `bank` skipped, misses detected by
`_check_field_exists`. -/
def requiredFieldIssues (data : Record) (productType bank : PyStr) :
    List PyStr :=
  let schema := getSchema productType
  let mapping := getMappingForProduct productType
  schema.fields.foldr
    (fun field acc =>
      if field == "bank".toList then acc
      else if checkFieldExists data field mapping then acc
      else missingFieldIssue field bank :: acc)
    []

/-- `DataValidator._is_number`: `float(s.replace(',', '.'))` succeeds. -/
def isNumberStr (s : PyStr) : Bool :=
  (pyFloatOfStr (swapChar ',' '.' s)).isSome

/-- `DataValidator._is_valid_rate_string` (strings only; the caller
guards non-strings). -/
def isValidRateString (s : PyStr) : Bool :=
  let cleaned := delChar '₽' (delChar ' ' (delChar '%' s))
  if strHas "-".toList cleaned then
    ((cleaned.splitOn '-').all isNumberStr)
  else if strStarts "до".toList cleaned then
    isNumberStr (pyStrip (replaceSub "до".toList [] cleaned))
  else isNumberStr cleaned

/-- `DataValidator._is_valid_amount_string`. -/
def isValidAmountString (s : PyStr) : Bool :=
  if strHas "Бесплатно".toList s || strHas "Н/Д".toList s then true
  else
    let cleaned := delChar ',' (delChar ' ' (delChar '₽' s))
    if strHas "До".toList cleaned || strHas "до".toList (pyLower cleaned) then true
    else isNumberStr cleaned || strHas "-".toList cleaned

/-- `DataValidator._validate_field_formats`. -/
def validateFieldFormats (data : Record) : List PyStr :=
  let rateIssues := (["ставка".toList, "процент".toList].filterMap (fun rf =>
    match recLookup data rf with
    | some rate =>
      if pyTruthy rate && !(pyEqV rate (.vStr "Нет".toList))
          && !(pyEqV rate (.vStr sentinelS)) then
        if !isNumType rate &&
            !(match rate with
              | .vStr s => isValidRateString s
              | _ => false) then
          some ("⚠️ Invalid rate format: '".toList ++ pyStrOf rate ++ "'".toList)
        else none
      else none
    | none => none))
  let amountIssues :=
    (["лимит".toList, "кредитный_лимит".toList, "сумма".toList].filterMap (fun af =>
      match recLookup data af with
      | some amount =>
        if pyTruthy amount && !isValidAmountString (pyStrOf amount) then
          some ("⚠️ Invalid amount format: '".toList ++ pyStrOf amount ++ "'".toList)
        else none
      | none => none))
  rateIssues ++ amountIssues

/-- `DataValidator._check_data_freshness`, with the current year passed
explicitly (the source reads `datetime.now()`). -/
def checkDataFreshness (data : Record) (currentYear : ℕ) : Option PyStr :=
  let dateField := pyGet data "дата".toList
  if !pyTruthy dateField then some "⚠️ No date field found in data".toList
  else if !strHas (natRepr currentYear) (pyStrOf dateField) then
    some ("⚠️ Data may be outdated: ".toList ++ pyStrOf dateField)
  else none

/-- `DataValidator.validate_product_data`: `(is_valid, issues)`. -/
def validateProductData (data : Record) (productType bank : PyStr)
    (currentYear : ℕ) : Bool × List PyStr :=
  if schemaDictEmpty (getSchema productType) then
    (false, ["⚠️ Unknown product type: ".toList ++ productType])
  else
    let issues := requiredFieldIssues data productType bank
      ++ validateFieldFormats data
      ++ (match checkDataFreshness data currentYear with
          | some i => [i]
          | none => [])
    (issues.length == 0, issues)

/-- The list of strings a resolved value is compared against by the
completeness check. -/
def naList : List Value :=
  [.vStr sentinelS, .vStr "N/A".toList, .vStr sentinelS, .vStr [],
   .vStr "None".toList]

/-- The `required_fields` list of `get_data_completeness_score`. -/
def requiredFieldsOf (productType : PyStr) : List PyStr :=
  (getSchema productType).fields.filter (fun f => f != "bank".toList)

/-- The `fields_present` counter of `get_data_completeness_score`: a field
counts when `_check_field_exists` holds and its resolved value is truthy
and outside the sentinel list. -/
def completenessCount (data : Record) (productType : PyStr) : ℕ :=
  (requiredFieldsOf productType).countP (fun field =>
    checkFieldExists data field (getMappingForProduct productType) &&
    (match validatorFieldValue data field with
     | some v => pyTruthy v && !(naList.any (fun w => pyEqV v w))
     | none => false))

/-- `DataValidator.get_data_completeness_score`. -/
def getDataCompletenessScore (data : Record) (productType : PyStr) : ℚ :=
  if (requiredFieldsOf productType).isEmpty then 1
  else
    (completenessCount data productType : ℚ)
      / ((requiredFieldsOf productType).length : ℚ)

/-! ## Supporting lemmas -/

/-- A digit character: code point between 48 and 57. -/
def isDigitCode (c : Char) : Prop := 48 ≤ c.toNat ∧ c.toNat ≤ 57

theorem digitChar_toNat {d : ℕ} (h : d < 10) : (digitChar d).toNat = 48 + d := by
  interval_cases d <;> decide

theorem natDigitsAux_digits :
    ∀ (fuel n : ℕ), ∀ c ∈ natDigitsAux fuel n, isDigitCode c := by
  intro fuel
  induction fuel with
  | zero => intro n c hc; simp [natDigitsAux] at hc
  | succ f ih =>
    intro n c hc
    rw [natDigitsAux] at hc
    split at hc
    · simp at hc
    · rw [List.mem_append] at hc
      rcases hc with hc | hc
      · exact ih _ c hc
      · rw [List.mem_singleton] at hc
        subst hc
        have hm : n % 10 < 10 := Nat.mod_lt _ (by omega)
        constructor <;> rw [digitChar_toNat hm] <;> omega

theorem natRepr_digits (n : ℕ) : ∀ c ∈ natRepr n, isDigitCode c := by
  intro c hc
  unfold natRepr at hc
  split at hc
  · rw [List.mem_singleton] at hc
    subst hc
    exact ⟨by decide, by decide⟩
  · exact natDigitsAux_digits _ _ c hc

theorem natDigitsAux_ne_nil {fuel n : ℕ} (h0 : n ≠ 0) (hf : n ≤ fuel) :
    natDigitsAux fuel n ≠ [] := by
  cases fuel with
  | zero => omega
  | succ f =>
    rw [natDigitsAux, if_neg h0]
    simp

theorem natRepr_ne_nil (n : ℕ) : natRepr n ≠ [] := by
  unfold natRepr
  split
  · simp
  · rename_i h0
    exact natDigitsAux_ne_nil h0 (le_refl n)

theorem digitsVal_append_one (l : List Char) (c : Char) :
    digitsVal (l ++ [c]) = 10 * digitsVal l + digitVal c := by
  unfold digitsVal
  rw [List.foldl_append]
  rfl

theorem natDigitsAux_val :
    ∀ (fuel n : ℕ), n ≤ fuel → digitsVal (natDigitsAux fuel n) = n := by
  intro fuel
  induction fuel with
  | zero => intro n hn; interval_cases n; rfl
  | succ f ih =>
    intro n hn
    rw [natDigitsAux]
    split
    · rename_i h0; rw [h0]; rfl
    · rename_i h0
      rw [digitsVal_append_one]
      have hlt : n / 10 < n := Nat.div_lt_self (by omega) (by omega)
      rw [ih (n / 10) (by omega)]
      have hm : n % 10 < 10 := Nat.mod_lt _ (by omega)
      have : digitVal (digitChar (n % 10)) = n % 10 := by
        unfold digitVal
        rw [digitChar_toNat hm]
        omega
      rw [this]
      omega

theorem digitsVal_natRepr (n : ℕ) : digitsVal (natRepr n) = n := by
  unfold natRepr
  split
  · rename_i h; rw [h]; rfl
  · exact natDigitsAux_val n n (le_refl n)

theorem strHas_cons_false {c : Char} {cs s : PyStr}
    (h : ∀ x ∈ s, x ≠ c) : strHas (c :: cs) s = false := by
  induction s with
  | nil => rfl
  | cons a t ih =>
    rw [strHas]
    have ha : a ≠ c := h a (List.mem_cons_self _ _)
    rw [Bool.or_eq_false_iff]
    constructor
    · rw [strStarts]
      have : (c == a) = false := by
        rw [beq_eq_false_iff_ne]
        exact fun hh => ha hh.symm
      rw [this]
      rfl
    · exact ih (fun x hx => h x (List.mem_cons_of_mem _ hx))

theorem strHas_single_of_mem {c : Char} {s : PyStr} (h : c ∈ s) :
    strHas [c] s = true := by
  induction s with
  | nil => cases h
  | cons a t ih =>
    rw [strHas, strStarts]
    rcases List.mem_cons.mp h with rfl | ht
    · simp [strStarts]
    · rw [ih ht]
      simp

theorem lowerChar_digit {c : Char} (h : isDigitCode c) : lowerChar c = c := by
  obtain ⟨h1, h2⟩ := h
  unfold lowerChar
  rw [if_neg, if_neg, if_neg]
  · simp only [beq_iff_eq]
    omega
  · rw [Bool.and_eq_true, decide_eq_true_iff, decide_eq_true_iff]
    omega
  · rw [Bool.and_eq_true, decide_eq_true_iff, decide_eq_true_iff]
    omega

theorem pyLower_digits {s : PyStr} (h : ∀ c ∈ s, isDigitCode c) :
    pyLower s = s := by
  unfold pyLower
  rw [List.map_congr_left (fun c hc => lowerChar_digit (h c hc))]
  exact List.map_id _

theorem takeWhile_all_true {p : Char → Bool} {s : PyStr}
    (h : ∀ c ∈ s, p c = true) : s.takeWhile p = s := by
  induction s with
  | nil => rfl
  | cons a t ih =>
    rw [List.takeWhile_cons, h a (List.mem_cons_self _ _)]
    simp only [if_true]
    rw [ih (fun c hc => h c (List.mem_cons_of_mem _ hc))]

theorem dropWhile_all_false {p : Char → Bool} {s : PyStr}
    (h : ∀ c ∈ s, p c = false) : s.dropWhile p = s := by
  cases s with
  | nil => rfl
  | cons a t =>
    rw [List.dropWhile_cons, h a (List.mem_cons_self _ _)]
    rfl

theorem pyStrip_of_no_space {s : PyStr}
    (h : ∀ c ∈ s, isSpaceChar c = false) : pyStrip s = s := by
  unfold pyStrip
  rw [dropWhile_all_false h]
  rw [dropWhile_all_false (fun c hc => h c (List.mem_reverse.mp hc))]
  exact List.reverse_reverse s

theorem swapChar_id {c d : Char} {s : PyStr} (h : ∀ x ∈ s, x ≠ c) :
    swapChar c d s = s := by
  unfold swapChar
  rw [List.map_congr_left]
  · exact List.map_id _
  · intro a ha
    have hb : (a == c) = false := beq_eq_false_iff_ne.mpr (h a ha)
    simp [hb]


instance {α β : Type} [DecidableEq α] [DecidableEq β] :
    DecidableEq (Except α β) := fun a b =>
  match a, b with
  | .ok x, .ok y =>
    if h : x = y then .isTrue (by rw [h]) else .isFalse (by simp [h])
  | .error x, .error y =>
    if h : x = y then .isTrue (by rw [h]) else .isFalse (by simp [h])
  | .ok _, .error _ => .isFalse (by simp)
  | .error _, .ok _ => .isFalse (by simp)

theorem mem_dedupFirstAux (l : List PyStr) :
    ∀ (seen : List PyStr) (a : PyStr),
      a ∈ dedupFirstAux seen l ↔ a ∈ l ∧ seen.contains a = false := by
  induction l with
  | nil => simp [dedupFirstAux]
  | cons x r ih =>
    intro seen a
    rw [dedupFirstAux]
    by_cases hx : seen.contains x
    · rw [if_pos hx, ih]
      simp only [List.mem_cons]
      constructor
      · rintro ⟨hr, hc⟩
        exact ⟨Or.inr hr, hc⟩
      · rintro ⟨hax | hr, hc⟩
        · subst hax; rw [hx] at hc; cases hc
        · exact ⟨hr, hc⟩
    · rw [if_neg hx]
      simp only [List.mem_cons, ih]
      rw [Bool.not_eq_true] at hx
      constructor
      · rintro (rfl | ⟨hr, hc⟩)
        · exact ⟨Or.inl rfl, hx⟩
        · simp only [List.contains_cons, Bool.or_eq_false_iff] at hc
          exact ⟨Or.inr hr, hc.2⟩
      · rintro ⟨rfl | hr, hc⟩
        · exact Or.inl rfl
        · by_cases hax : a = x
          · exact Or.inl hax
          · refine Or.inr ⟨hr, ?_⟩
            simp only [List.contains_cons, Bool.or_eq_false_iff]
            refine ⟨?_, hc⟩
            simp only [beq_eq_false_iff_ne]
            exact hax

theorem mem_dedupFirst (l : List PyStr) (a : PyStr) :
    a ∈ dedupFirst l ↔ a ∈ l := by
  rw [dedupFirst, mem_dedupFirstAux]
  simp

theorem any_append_subsumed (l1 l2 : List PyStr) (p : PyStr → Bool)
    (h : ∀ x ∈ l2, x ∈ l1) : (l1 ++ l2).any p = l1.any p := by
  rw [List.any_append]
  cases hl : l1.any p
  · simp only [Bool.false_or]
    rw [List.any_eq_false]
    intro x hx
    have := (List.any_eq_false.mp hl) x (h x hx)
    simpa using this
  · simp

theorem sources_sub_allNames (f : PyStr) (m : List (PyStr × PyStr))
    (hm : m ∈ PRODUCT_TYPE_MAPPINGS.map Prod.snd) :
    ∀ s ∈ (m.filter (fun p => p.2 == f)).map Prod.fst,
      s ∈ getAllPossibleFieldNames f := by
  intro s hs
  unfold getAllPossibleFieldNames
  rw [mem_dedupFirst]
  refine List.mem_append_right _ ?_
  rw [List.mem_flatMap]
  exact ⟨m, hm, hs⟩

theorem lookup_mem_pairs {β : Type} {l : List (PyStr × β)} {k : PyStr}
    {v : β} (h : List.lookup k l = some v) : (k, v) ∈ l := by
  induction l with
  | nil => simp [List.lookup] at h
  | cons p r ih =>
    obtain ⟨a, b⟩ := p
    rw [List.lookup] at h
    by_cases hk : k == a
    · rw [hk] at h
      cases h
      have : k = a := eq_of_beq hk
      subst this
      exact List.mem_cons_self _ _
    · rw [Bool.not_eq_true] at hk
      rw [hk] at h
      exact List.mem_cons_of_mem _ (ih h)

theorem getMappingForProduct_cases (pt : PyStr) :
    getMappingForProduct pt ∈ PRODUCT_TYPE_MAPPINGS.map Prod.snd ∨
      getMappingForProduct pt = [] := by
  unfold getMappingForProduct
  cases h : List.lookup pt PRODUCT_TYPE_MAPPINGS with
  | none => right; rfl
  | some m =>
    left
    simp only [Option.getD_some]
    exact List.mem_map.mpr ⟨(pt, m), lookup_mem_pairs h, rfl⟩

/-- `_check_field_exists` does not depend on the product mapping passed to
it: the mapping's sources are already among `get_all_possible_field_names`. -/
theorem checkFieldExists_eq_base (data : Record) (f pt : PyStr) :
    checkFieldExists data f (getMappingForProduct pt)
      = (getAllPossibleFieldNames f).any (aliasHit data) := by
  unfold checkFieldExists
  rcases getMappingForProduct_cases pt with hm | hm
  · exact any_append_subsumed _ _ _ (sources_sub_allNames f _ hm)
  · rw [hm]; simp

theorem getSchema_of_lookup_none (pt : PyStr)
    (h : List.lookup pt SCHEMAS = none) : getSchema pt = CREDIT_CARD_SCHEMA := by
  unfold getSchema
  rw [h]
  rfl

/-! ## Digit-string evaluation lemmas (for C9) -/

theorem digit_ne {c : Char} (h : isDigitCode c) {d : Char}
    (hd : 57 < d.toNat ∨ d.toNat < 48) : c ≠ d := by
  intro he
  subst he
  obtain ⟨h1, h2⟩ := h
  rcases hd with hd | hd <;> omega

theorem digit_isDigitChar {c : Char} (h : isDigitCode c) :
    isDigitChar c = true := by
  obtain ⟨h1, h2⟩ := h
  simp [isDigitChar]
  omega

theorem digit_tokChar {c : Char} (h : isDigitCode c) : tokChar c = true := by
  unfold tokChar
  rw [digit_isDigitChar h]
  rfl

theorem digit_not_space {c : Char} (h : isDigitCode c) :
    isSpaceChar c = false := by
  unfold isSpaceChar
  simp only [Bool.or_eq_false_iff, beq_eq_false_iff_ne]
  refine ⟨⟨⟨⟨⟨?_, ?_⟩, ?_⟩, ?_⟩, ?_⟩, ?_⟩ <;>
    exact digit_ne h (Or.inr (by decide))

theorem splitSign_digits {s : PyStr} (hne : s ≠ [])
    (h : ∀ c ∈ s, isDigitCode c) : splitSign s = (false, s) := by
  cases s with
  | nil => cases hne rfl
  | cons c t =>
    have hc := h c (List.mem_cons_self _ _)
    simp only [splitSign]
    rw [if_neg, if_neg]
    · simp only [beq_iff_eq]
      exact digit_ne hc (Or.inr (by decide))
    · simp only [beq_iff_eq]
      exact digit_ne hc (Or.inr (by decide))

theorem digits_beq_word_false {s : PyStr} (hne : s ≠ [])
    (h : ∀ c ∈ s, isDigitCode c) {d : Char} {w : PyStr}
    (hd : 57 < d.toNat ∨ d.toNat < 48) : (s == d :: w) = false := by
  rw [beq_eq_false_iff_ne]
  intro he
  cases s with
  | nil => exact hne rfl
  | cons c t =>
    rw [List.cons.injEq] at he
    exact digit_ne (h c (List.mem_cons_self _ _)) hd he.1

theorem parseDecimalBody_digits {s : PyStr} (hne : s ≠ [])
    (h : ∀ c ∈ s, isDigitCode c) :
    parseDecimalBody s = some ((digitsVal s : ℕ) : ℚ) := by
  simp only [parseDecimalBody]
  rw [takeWhile_all_true (fun c hc => digit_isDigitChar (h c hc))]
  rw [List.drop_length]
  rw [if_neg (by simpa [List.isEmpty_iff] using hne)]

theorem pyFloatOfStr_digits {s : PyStr} (hne : s ≠ [])
    (h : ∀ c ∈ s, isDigitCode c) :
    pyFloatOfStr s = some (clampFloat ((digitsVal s : ℕ) : ℚ)) := by
  simp only [pyFloatOfStr]
  rw [pyStrip_of_no_space (fun c hc => digit_not_space (h c hc))]
  rw [splitSign_digits hne h]
  dsimp only
  rw [pyLower_digits h]
  rw [show (s == "inf".toList) = false from
    digits_beq_word_false hne h (Or.inl (by decide))]
  rw [show (s == "infinity".toList) = false from
    digits_beq_word_false hne h (Or.inl (by decide))]
  rw [show (s == "nan".toList) = false from
    digits_beq_word_false hne h (Or.inl (by decide))]
  simp only [Bool.or_self, Bool.false_eq_true, if_false]
  rw [parseDecimalBody_digits hne h]

theorem extractNumber_digits {s : PyStr} (hne : s ≠ [])
    (h : ∀ c ∈ s, isDigitCode c) :
    extractNumber s = .ok (some (clampFloat ((digitsVal s : ℕ) : ℚ))) := by
  simp only [extractNumber]
  rw [dropWhile_all_false (fun c hc => by rw [digit_tokChar (h c hc)]; rfl)]
  rw [takeWhile_all_true (fun c hc => digit_tokChar (h c hc))]
  rw [if_neg (by simpa [List.isEmpty_iff] using hne)]
  rw [swapChar_id (fun c hc => digit_ne (h c hc) (Or.inr (by decide)))]
  rw [pyFloatOfStr_digits hne h]

theorem clampFloat_ne_nan (q : ℚ) : clampFloat q ≠ .nan := by
  unfold clampFloat
  split
  · simp
  · split <;> simp

theorem pyStrOf_vInt_nonneg {x : ℤ} (hx : 0 ≤ x) :
    pyStrOf (.vInt x) = natRepr x.natAbs := by
  simp only [pyStrOf, pyReprV, intRepr]
  rw [if_neg (by omega)]

/-- A successful `_format_amount` on a non-negative integer always carries
the currency marker. -/
theorem formatAmount_vInt_ok {x : ℤ} (hx : 0 ≤ x) {s : PyStr}
    (h : formatAmount (.vInt x) = .ok s) : strHas ['₽'] s = true := by
  have hdig := natRepr_digits x.natAbs
  have hne := natRepr_ne_nil x.natAbs
  simp only [formatAmount] at h
  rw [pyStrOf_vInt_nonneg hx] at h
  rw [pyLower_digits hdig] at h
  have h1 : strHas "₽".toList (natRepr x.natAbs) = false :=
    strHas_cons_false (fun c hc => digit_ne (hdig c hc) (Or.inl (by decide)))
  have h2 : strHas "До".toList (natRepr x.natAbs) = false :=
    strHas_cons_false (fun c hc => digit_ne (hdig c hc) (Or.inl (by decide)))
  have h3 : strHas "до".toList (natRepr x.natAbs) = false :=
    strHas_cons_false (fun c hc => digit_ne (hdig c hc) (Or.inl (by decide)))
  have h4 : strHas "-".toList (natRepr x.natAbs) = false :=
    strHas_cons_false (fun c hc => digit_ne (hdig c hc) (Or.inr (by decide)))
  rw [h1, h2, h3, h4] at h
  simp only [Bool.or_self, Bool.or_false, Bool.false_and,
    Bool.false_eq_true, if_false] at h
  rw [extractNumber_digits hne hdig] at h
  rw [digitsVal_natRepr] at h
  simp only [bind, Except.bind] at h
  cases hcf : clampFloat ((x.natAbs : ℕ) : ℚ) with
  | nan => exact absurd hcf (clampFloat_ne_nan _)
  | inf b =>
    rw [hcf] at h
    simp only [pfTruthy, if_true] at h
    simp only [pyIntV, pyIntOfFloat] at h
    cases h
  | fin q =>
    rw [hcf] at h
    by_cases hq : q = 0
    · subst hq
      simp only [pfTruthy, bne_self_eq_false, Bool.false_eq_true, if_false,
        pyIntV] at h
      cases h
      exact strHas_single_of_mem (by simp)
    · have : pfTruthy (.fin q) = true := by
        simp [pfTruthy, bne_iff_ne, hq]
      rw [this] at h
      simp only [if_true, pyIntV, pyIntOfFloat] at h
      cases h
      exact strHas_single_of_mem (by simp)

/-- `_format_amount` returns a string holding the currency marker
unchanged. -/
theorem formatAmount_currency_pass {s : PyStr}
    (h : strHas ['₽'] s = true) : formatAmount (.vStr s) = .ok s := by
  have h' : strHas "₽".toList (pyStrOf (.vStr s)) = true := h
  simp only [formatAmount]
  rw [h']
  rfl

/-! ## Claim C9 -/

/-- C9: formatting an already-formatted amount is stable — for every
integer `x ≥ 0`, `format_amount(format_amount(x)) = format_amount(x)`
(composition in the exception monad: a successful first format yields a
string with the currency marker, which the second pass returns unchanged;
an exceptional first format short-circuits identically). -/
theorem c9_format_amount_idempotent (x : ℤ) (hx : 0 ≤ x) :
    Except.bind (formatAmount (.vInt x)) (fun s => formatAmount (.vStr s))
      = formatAmount (.vInt x) := by
  cases h : formatAmount (.vInt x) with
  | error e => rfl
  | ok s =>
    show formatAmount (.vStr s) = .ok s
    exact formatAmount_currency_pass (formatAmount_vInt_ok hx h)

/-- Witness for C9 at `x = 1234567`: the first format yields the grouped
currency string and the second pass preserves it. -/
theorem c9_witness :
    Except.bind (formatAmount (.vInt 1234567))
        (fun s => formatAmount (.vStr s))
      = formatAmount (.vInt 1234567) ∧
    formatAmount (.vInt 1234567) = .ok "1 234 567₽".toList :=
  ⟨c9_format_amount_idempotent 1234567 (by decide), by decide⟩

/-! ## Claim C4 -/

/-- C4: advantage detection is side-agnostic — for every pair of canonical
records `A`, `B` and every product type `t`, the reference-side advantage
list of `compare_products A B t` equals the competitor-side advantage list
of `compare_products B A t`, and symmetrically. -/
theorem c4_advantages_side_agnostic (A B : Record) (t : PyStr) :
    (compareProducts A B t).sberAdvantages
        = (compareProducts B A t).competitorAdvantages ∧
    (compareProducts A B t).competitorAdvantages
        = (compareProducts B A t).sberAdvantages :=
  ⟨rfl, rfl⟩

/-! ## Claim C5 -/

/-- C5: the recommendation is a pure function of the two advantage-list
lengths — a strictly longer reference-side list yields the fixed
reference-wins string, a strictly longer competitor-side list yields the
fixed competitor-wins string, and equal lengths yield the fixed
tie string. -/
theorem c5_recommendation_by_lengths (a b : List PyStr) :
    getRecommendation a b =
      (if a.length > b.length then
        "Сбер имеет более конкурентное предложение".toList
       else if b.length > a.length then
        "Конкурент имеет лучшие условия - рекомендуется пересмотреть".toList
       else "Условия примерно сопоставимы".toList) :=
  rfl

/-! ## Claim C10 -/

/-- C10: `get_schema` silently falls back to the credit-card schema for
every product type outside its table (including `debit_card`), the
`Unknown product type` branch of the validator is unreachable (the schema
dict returned is never empty), and such records are required-field-checked
and completeness-scored exactly as credit cards. -/
theorem c10_get_schema_silent_default (pt : PyStr)
    (h : List.lookup pt SCHEMAS = none) :
    getSchema pt = CREDIT_CARD_SCHEMA ∧
    schemaDictEmpty (getSchema pt) = false ∧
    (∀ data bank, requiredFieldIssues data pt bank
        = requiredFieldIssues data ("credit_card".toList) bank) ∧
    (∀ data, getDataCompletenessScore data pt
        = getDataCompletenessScore data ("credit_card".toList)) := by
  have hs := getSchema_of_lookup_none pt h
  have hcc : getSchema ("credit_card".toList) = CREDIT_CARD_SCHEMA := by rfl
  refine ⟨hs, rfl, ?_, ?_⟩
  · intro data bank
    unfold requiredFieldIssues
    rw [hs, hcc]
    simp only [checkFieldExists_eq_base]
  · intro data
    unfold getDataCompletenessScore completenessCount requiredFieldsOf
    rw [hs, hcc]
    simp only [checkFieldExists_eq_base]

/-- Witness for C10 at the concrete product type `debit_card` and a
concrete record: the fallback schema is the credit-card one and the
completeness score agrees with the credit-card score. -/
theorem c10_witness :
    getSchema ("debit_card".toList) = CREDIT_CARD_SCHEMA ∧
    getDataCompletenessScore [(("ставка".toList : PyStr), Value.vStr "19.9%".toList)]
        ("debit_card".toList)
      = getDataCompletenessScore [(("ставка".toList : PyStr), Value.vStr "19.9%".toList)]
        ("credit_card".toList) := by
  have h := c10_get_schema_silent_default ("debit_card".toList) (by decide)
  exact ⟨h.1, h.2.2.2 _⟩

/-! ## Claim C1 -/

/-- Do two key lists contain the same set of keys? -/
def sameKeySet (a b : List PyStr) : Bool :=
  a.all (fun x => b.contains x) && b.all (fun x => a.contains x)

/-- The key list of `_normalize_with_mapping` output is `bank` followed by
the extractor-table keys, whatever the raw record holds. -/
theorem recKeys_normalizeWithMapping (raw : Record) (bank : PyStr)
    (exts : List (PyStr × Extractor)) :
    recKeys (normalizeWithMapping raw bank exts)
      = "bank".toList :: exts.map Prod.fst := by
  simp [normalizeWithMapping, recKeys, List.map_map, Function.comp]

/-- C1 counterexample: for `credit_card` the canonical key set is **not**
`{bank} ∪ CREDIT_CARD_SCHEMA.fields` (the normalizer also emits
`min_payment`, which the schema does not declare), and for `debit_card`
the key set does not match the schema `get_schema` returns for it (the
credit-card fallback) either. -/
theorem c1_counterexample :
    sameKeySet (recKeys (normalizeCreditCard [] "Сбер".toList))
        ("bank".toList :: CREDIT_CARD_SCHEMA.fields) = false ∧
    sameKeySet (recKeys (normalizeDebitCard [] "Сбер".toList))
        ("bank".toList :: (getSchema ("debit_card".toList)).fields) = false := by
  decide

/-- C1 amended: for `deposit` and `consumer_loan` the canonical key set is
exactly `{bank}` ∪ the declared schema fields; for `credit_card` it is that
union plus the undeclared `min_payment`; for `debit_card` (which has no
schema of its own) the keys are `bank` plus the debit extractor table's
attribute list. -/
theorem c1_amended_key_sets (raw : Record) (bank : PyStr) :
    sameKeySet (recKeys (normalizeDeposit raw bank))
        ("bank".toList :: DEPOSIT_SCHEMA.fields) = true ∧
    sameKeySet (recKeys (normalizeConsumerLoan raw bank))
        ("bank".toList :: CONSUMER_LOAN_SCHEMA.fields) = true ∧
    sameKeySet (recKeys (normalizeCreditCard raw bank))
        (("bank".toList :: CREDIT_CARD_SCHEMA.fields) ++ ["min_payment".toList])
      = true ∧
    recKeys (normalizeDebitCard raw bank)
      = "bank".toList :: debitCardExtractors.map Prod.fst := by
  unfold normalizeDeposit normalizeConsumerLoan normalizeCreditCard
    normalizeDebitCard
  rw [recKeys_normalizeWithMapping, recKeys_normalizeWithMapping,
    recKeys_normalizeWithMapping, recKeys_normalizeWithMapping]
  refine ⟨by decide, by decide, by decide, rfl⟩

/-! ## Claim C2 -/

/-- The attributes of `normalize_credit_card` that are raw-value
passthrough lambdas, with the single raw key each reads. -/
def creditPassthrough : List (PyStr × PyStr) :=
  [("min_salary_requirement".toList, "мин_зарплата".toList),
   ("commission".toList, "комиссия".toList)]

/-- Passthrough attributes of `normalize_debit_card`. -/
def debitPassthrough : List (PyStr × PyStr) :=
  [("loyalty_program".toList, "программа_лояльности".toList),
   ("sms_notifications".toList, "смс".toList),
   ("monthly_limit".toList, "лимит_месячный".toList)]

/-- Passthrough attributes of `normalize_deposit`. -/
def depositPassthrough : List (PyStr × PyStr) :=
  [("term_months".toList, "срок".toList),
   ("min_amount".toList, "минимальная_сумма".toList),
   ("max_amount".toList, "максимальная_сумма".toList),
   ("replenishment".toList, "пополнение".toList),
   ("early_withdrawal".toList, "досрочное_снятие".toList),
   ("insurance".toList, "страхование".toList)]

/-- Passthrough attributes of `normalize_consumer_loan`. -/
def loanPassthrough : List (PyStr × PyStr) :=
  [("term_months".toList, "срок".toList),
   ("commission".toList, "комиссия".toList),
   ("approval_time".toList, "время_одобрения".toList),
   ("min_score".toList, "мин_скор".toList)]

theorem isStrV_strE (g : Record → Except PyExn PyStr) (raw : Record) :
    isStrV (extractorResult (strE g) raw) = true := by
  unfold extractorResult strE
  cases h : g raw with
  | ok s => simp [h, Except.map, isStrV]
  | error e => simp [h, Except.map, isStrV]

theorem isStrV_pureS (g : Record → PyStr) (raw : Record) :
    isStrV (extractorResult (pureS g) raw) = true := by
  simp [extractorResult, pureS, isStrV]

theorem passE_value (a : PyStr) (raw : Record) :
    isStrV (extractorResult (passE a) raw) = true ∨
      extractorResult (passE a) raw = pyGetD raw a (.vStr sentinelS) := by
  cases hx : pyGetD raw a (.vStr sentinelS) <;>
    simp [extractorResult, passE, hx, isStrV]

/-- C2 counterexample: normalizing a deposit record whose raw `срок` holds
the integer `12` leaves the integer — not a string — in the canonical
`term_months` attribute. -/
theorem c2_counterexample :
    ((normalizeDeposit [(("срок".toList : PyStr), Value.vInt 12)]
        "Сбер".toList).any (fun kv => !isStrV kv.2) = true) ∧
    ((match recLookup (normalizeDeposit
          [(("срок".toList : PyStr), Value.vInt 12)] "Сбер".toList)
          ("term_months".toList) with
      | some (.vInt n) => n == 12
      | _ => false) = true) := by
  decide

/-- C2 amended: every canonical value is a string **except** the
passthrough attributes (`lambda d: d.get(key, sentinel)` extractors),
which carry the raw value unchanged; `bank` and every formatter-backed
attribute are always strings. -/
theorem c2_amended_values (raw : Record) (bank : PyStr) :
    (∀ kv ∈ normalizeCreditCard raw bank,
      isStrV kv.2 = true ∨
        ∃ a, (kv.1, a) ∈ creditPassthrough ∧
          kv.2 = pyGetD raw a (.vStr sentinelS)) ∧
    (∀ kv ∈ normalizeDebitCard raw bank,
      isStrV kv.2 = true ∨
        ∃ a, (kv.1, a) ∈ debitPassthrough ∧
          kv.2 = pyGetD raw a (.vStr sentinelS)) ∧
    (∀ kv ∈ normalizeDeposit raw bank,
      isStrV kv.2 = true ∨
        ∃ a, (kv.1, a) ∈ depositPassthrough ∧
          kv.2 = pyGetD raw a (.vStr sentinelS)) ∧
    (∀ kv ∈ normalizeConsumerLoan raw bank,
      isStrV kv.2 = true ∨
        ∃ a, (kv.1, a) ∈ loanPassthrough ∧
          kv.2 = pyGetD raw a (.vStr sentinelS)) := by
  refine ⟨?_, ?_, ?_, ?_⟩ <;>
  · intro kv hkv
    simp only [normalizeCreditCard, normalizeDebitCard, normalizeDeposit,
      normalizeConsumerLoan, normalizeWithMapping, creditCardExtractors,
      debitCardExtractors, depositExtractors, consumerLoanExtractors,
      List.map_cons, List.map_nil, List.mem_cons, List.not_mem_nil,
      or_false] at hkv
    rcases hkv with rfl | rfl | rfl | rfl | rfl | rfl | rfl | rfl | rfl | rfl
    all_goals
      first
      | (left; rfl)
      | (left; exact isStrV_strE _ raw)
      | (rcases passE_value _ raw with h | h
         · exact Or.inl h
         · refine Or.inr ⟨_, ?_, h⟩
           simp [creditPassthrough, debitPassthrough, depositPassthrough,
             loanPassthrough])

/-! ## Claim C7 -/

/-- C7 counterexample: on the empty raw record every credit-card attribute
lacks all of its aliases, yet only 7 of the 8 non-`bank` attributes get a
missing-field issue — `grace_period` is never reported missing, because
its alias `грейс_период` is a key of `NESTED_FIELD_HANDLERS` and
`_check_field_exists` treats that as presence regardless of the record. -/
theorem c7_counterexample :
    (requiredFieldIssues [] ("credit_card".toList) ("X".toList)).length = 7 ∧
    "grace_period".toList ∈ CREDIT_CARD_SCHEMA.fields ∧
    (getAllPossibleFieldNames ("grace_period".toList)).all
        (fun n => !hasKey [] n) = true ∧
    (requiredFieldIssues [] ("credit_card".toList) ("X".toList)).all
        (fun i => !(strHas "grace_period".toList i)) = true := by
  decide

/-- C7 amended: for every record, product type and bank label, the
required-field loop produces exactly one missing-field issue per declared
non-`bank` attribute none of whose possible names is a key of the record
**and** none of whose possible names is a key of `NESTED_FIELD_HANDLERS`;
attributes with a nested-handler alias are never reported missing. -/
theorem c7_amended_required_issues (data : Record) (pt bank : PyStr) :
    requiredFieldIssues data pt bank
      = ((getSchema pt).fields.filter (fun f =>
            f != "bank".toList &&
              !((getAllPossibleFieldNames f).any (aliasHit data)))).map
          (fun f => missingFieldIssue f bank) := by
  have h : ∀ l : List PyStr,
      l.foldr (fun field acc =>
        if field == "bank".toList then acc
        else if checkFieldExists data field (getMappingForProduct pt) then acc
        else missingFieldIssue field bank :: acc) []
      = (l.filter (fun f =>
            f != "bank".toList &&
              !((getAllPossibleFieldNames f).any (aliasHit data)))).map
          (fun f => missingFieldIssue f bank) := by
    intro l
    induction l with
    | nil => rfl
    | cons f r ih =>
      rw [List.foldr_cons, List.filter_cons, checkFieldExists_eq_base data f pt,
        ih]
      by_cases hb : f = "bank".toList
      · subst hb
        simp
      · have hb' : ¬f = ['b', 'a', 'n', 'k'] := hb
        by_cases hc : (getAllPossibleFieldNames f).any (aliasHit data) = true <;>
          simp [hb', hc, bne]
  exact h (getSchema pt).fields

/-! ## Claim C8 -/

theorem firstPresent_some_mem {data : Record} {names : List PyStr} {v : Value}
    (h : firstPresent data names = some v) :
    ∃ n ∈ names, hasKey data n = true := by
  induction names with
  | nil => simp [firstPresent] at h
  | cons n rest ih =>
    rw [firstPresent] at h
    by_cases hk : hasKey data n
    · exact ⟨n, List.mem_cons_self _ _, hk⟩
    · rw [if_neg hk] at h
      obtain ⟨m, hm, hkm⟩ := ih h
      exact ⟨m, List.mem_cons_of_mem _ hm, hkm⟩

theorem checkFieldExists_of_resolved {data : Record} {f : PyStr} (pt : PyStr)
    {v : Value} (h : validatorFieldValue data f = some v) :
    checkFieldExists data f (getMappingForProduct pt) = true := by
  rw [checkFieldExists_eq_base]
  rw [validatorFieldValue] at h
  obtain ⟨n, hn, hk⟩ := firstPresent_some_mem h
  rw [List.any_eq_true]
  exact ⟨n, hn, by simp [aliasHit, hk]⟩

theorem getSchema_cases (pt : PyStr) :
    getSchema pt = CREDIT_CARD_SCHEMA ∨ getSchema pt = DEPOSIT_SCHEMA ∨
      getSchema pt = CONSUMER_LOAN_SCHEMA := by
  unfold getSchema
  cases h : List.lookup pt SCHEMAS with
  | none => left; rfl
  | some s =>
    have hmem := lookup_mem_pairs h
    simp only [Option.getD_some]
    simp only [SCHEMAS, List.mem_cons, List.not_mem_nil, or_false] at hmem
    rcases hmem with h1 | h1 | h1 <;>
      [left; (right; left); (right; right)] <;>
      exact congrArg Prod.snd h1

theorem requiredFields_ne_nil (pt : PyStr) :
    (requiredFieldsOf pt).length ≠ 0 := by
  unfold requiredFieldsOf
  rcases getSchema_cases pt with h | h | h <;> rw [h] <;> decide

/-- The schema field lists are never empty after dropping `bank`, so the
score is always the counted fraction. -/
theorem getDataCompletenessScore_eq (data : Record) (pt : PyStr) :
    getDataCompletenessScore data pt =
      (completenessCount data pt : ℚ) / ((requiredFieldsOf pt).length : ℚ) := by
  unfold getDataCompletenessScore
  rw [if_neg]
  intro h
  have := requiredFields_ne_nil pt
  rw [List.isEmpty_iff] at h
  rw [h] at this
  simp at this

/-- C8, with part two amended: (a) exactly as claimed, if no required
attribute resolves (via `get_all_possible_field_names`, first present
alias) to a value outside the sentinel list, the completeness score is 0;
(b) if every required attribute resolves to a present, **Python-truthy**,
non-sentinel value, the score is 1.  (Truthiness is the amendment: a
present `0` is skipped by the `if value and value not in …` test.) -/
theorem c8_amended_completeness_bounds (data : Record) (pt : PyStr) :
    ((∀ f ∈ requiredFieldsOf pt,
        (match validatorFieldValue data f with
         | some v => naList.any (fun w => pyEqV v w)
         | none => true) = true) →
      getDataCompletenessScore data pt = 0) ∧
    ((∀ f ∈ requiredFieldsOf pt,
        (match validatorFieldValue data f with
         | some v => pyTruthy v && !(naList.any (fun w => pyEqV v w))
         | none => false) = true) →
      getDataCompletenessScore data pt = 1) := by
  have hne := requiredFields_ne_nil pt
  constructor
  · intro ha
    rw [getDataCompletenessScore_eq]
    have hz : completenessCount data pt = 0 := by
      unfold completenessCount
      rw [List.countP_eq_zero]
      intro f hf
      have := ha f hf
      cases hv : validatorFieldValue data f with
      | none => simp [hv]
      | some v =>
        rw [hv] at this
        have h2 : naList.any (fun w => pyEqV v w) = true := this
        simp [hv, h2]
    rw [hz]
    simp
  · intro hb
    rw [getDataCompletenessScore_eq]
    have hall : completenessCount data pt = (requiredFieldsOf pt).length := by
      unfold completenessCount
      rw [List.countP_eq_length]
      intro f hf
      have := hb f hf
      cases hv : validatorFieldValue data f with
      | none => rw [hv] at this; cases this
      | some v =>
        rw [hv] at this
        rw [Bool.and_eq_true]
        exact ⟨checkFieldExists_of_resolved pt hv, this⟩
    rw [hall, div_self]
    exact Nat.cast_ne_zero.mpr hne

/-- C8 counterexample: a deposit record in which every required attribute
resolves to a present, non-sentinel value (the rate resolves to the
integer `0`) scores 7/8, not 1.0 — the score counts only Python-truthy
values, and `0` is falsy. -/
theorem c8_counterexample :
    ((requiredFieldsOf ("deposit".toList)).all (fun f =>
      (match validatorFieldValue
          [(("название".toList : PyStr), Value.vStr "Вклад".toList),
           ("ставка".toList, Value.vInt 0),
           ("срок".toList, Value.vStr "12 месяцев".toList),
           ("минимальная_сумма".toList, Value.vInt 1000),
           ("максимальная_сумма".toList, Value.vInt 1000000),
           ("пополнение".toList, Value.vStr "Да".toList),
           ("досрочное_снятие".toList, Value.vStr "Да".toList),
           ("страхование".toList, Value.vStr "Да".toList)] f with
       | some v => !(naList.any (fun w => pyEqV v w))
       | none => false)) = true) ∧
    getDataCompletenessScore
        [(("название".toList : PyStr), Value.vStr "Вклад".toList),
         ("ставка".toList, Value.vInt 0),
         ("срок".toList, Value.vStr "12 месяцев".toList),
         ("минимальная_сумма".toList, Value.vInt 1000),
         ("максимальная_сумма".toList, Value.vInt 1000000),
         ("пополнение".toList, Value.vStr "Да".toList),
         ("досрочное_снятие".toList, Value.vStr "Да".toList),
         ("страхование".toList, Value.vStr "Да".toList)]
        ("deposit".toList) = 7/8 := by
  refine ⟨by decide, ?_⟩
  rw [getDataCompletenessScore_eq]
  rw [show completenessCount
      [(("название".toList : PyStr), Value.vStr "Вклад".toList),
       ("ставка".toList, Value.vInt 0),
       ("срок".toList, Value.vStr "12 месяцев".toList),
       ("минимальная_сумма".toList, Value.vInt 1000),
       ("максимальная_сумма".toList, Value.vInt 1000000),
       ("пополнение".toList, Value.vStr "Да".toList),
       ("досрочное_снятие".toList, Value.vStr "Да".toList),
       ("страхование".toList, Value.vStr "Да".toList)]
      ("deposit".toList) = 7 from by decide]
  rw [show (requiredFieldsOf ("deposit".toList)).length = 8 from by decide]
  norm_num

/-! ## Claim C3 -/

/-- C3 counterexample: both interest rates parse (to 0.0 and 5.0), yet no
insight at all is emitted for `credit_card` — `if sber_rate and comp_rate`
treats the parsed rate `0.0` as false. -/
theorem c3_counterexample :
    extractRate (pyGet [(("interest_rate".toList : PyStr),
        Value.vStr "0".toList)] ("interest_rate".toList)) = some (.fin 0) ∧
    extractRate (pyGet [(("interest_rate".toList : PyStr),
        Value.vStr "5".toList)] ("interest_rate".toList)) = some (.fin 5) ∧
    generateInsights [(("interest_rate".toList : PyStr), Value.vStr "0".toList)]
        [(("interest_rate".toList : PyStr), Value.vStr "5".toList)]
        ("credit_card".toList) = [] := by
  decide

/-- C3 amended: when both rates parse **and both are nonzero** (Python
truthiness of the parsed floats), `credit_card` comparison emits exactly
one rate insight: "practically identical" when |competitor − reference| <
0.1, "Sber wins by d" when the difference is positive, and "competitor
wins by d" otherwise. -/
theorem c3_amended_credit_rate_insight (A B : Record) (ra rb : PyFloat)
    (hA : extractRate (pyGet A ("interest_rate".toList)) = some ra)
    (hB : extractRate (pyGet B ("interest_rate".toList)) = some rb)
    (hta : pfTruthy ra = true) (htb : pfTruthy rb = true) :
    generateInsights A B ("credit_card".toList) =
      [if pfLt (pfAbs (pfSub rb ra)) (.fin (mkRat 1 10)) then
         "✓ Процентные ставки практически идентичны".toList
       else if pfGt (pfSub rb ra) (.fin 0) then
         "✓ Сбер выигрывает по ставке на ".toList ++ fmtF1 (pfSub rb ra)
           ++ "%".toList
       else
         "⚠️ Конкурент выигрывает по ставке на ".toList
           ++ fmtF1 (pfNeg (pfSub rb ra)) ++ "%".toList] := by
  unfold generateInsights
  simp only [beq_self_eq_true, if_true, hA, hB, hta, htb, Bool.and_self]
  split_ifs <;> rfl

/-- Witness for C3 on concrete records (reference 19.9%, competitor
17.9%): exactly the competitor-wins insight is emitted. -/
theorem c3_witness :
    generateInsights
        [(("interest_rate".toList : PyStr), Value.vStr "19.9%".toList)]
        [(("interest_rate".toList : PyStr), Value.vStr "17.9%".toList)]
        ("credit_card".toList)
      = ["⚠️ Конкурент выигрывает по ставке на 2.0%".toList] := by
  have h := c3_amended_credit_rate_insight
    [(("interest_rate".toList : PyStr), Value.vStr "19.9%".toList)]
    [(("interest_rate".toList : PyStr), Value.vStr "17.9%".toList)]
    (.fin (mkRat 199 10)) (.fin (mkRat 179 10))
    (by decide) (by decide) (by decide) (by decide)
  rw [h]
  decide

/-! ## Claim C6 -/

/-- Is the formatter result a returned string (no exception)? -/
def isOkE (r : Except PyExn PyStr) : Bool :=
  match r with
  | .ok _ => true
  | .error _ => false

theorem extractNumber_error_classify {s : PyStr} {e : PyExn}
    (h : extractNumber s = .error e) : e = .valueError := by
  simp only [extractNumber] at h
  split at h
  · cases h
  · split at h
    · cases h
    · cases h
      rfl

theorem pyIntV_error_classify {v : Value} {e : PyExn}
    (h : pyIntV v = .error e) :
    e = .valueError ∨ e = .typeError ∨ e = .overflowError := by
  cases v with
  | vNull => cases h; right; left; rfl
  | vBool b => cases h
  | vInt n => cases h
  | vFloat f =>
    cases f with
    | fin q => cases h
    | inf n => cases h; right; right; rfl
    | nan => cases h; left; rfl
  | vStr s =>
    simp only [pyIntV, pyIntOfStr] at h
    split at h
    · cases h; left; rfl
    · cases h
  | vDict es => cases h; right; left; rfl

theorem intAttempt_classify (vs : PyStr) (v : Value) {e : PyExn}
    (h : (do
        let no ← extractNumber vs
        pyIntV (match no with
          | some f => if pfTruthy f then Value.vFloat f else v
          | none => v)) = Except.error e) :
    e = .valueError ∨ e = .typeError ∨ e = .overflowError := by
  cases hx : extractNumber vs with
  | error e2 =>
    rw [hx] at h
    cases h
    exact Or.inl (extractNumber_error_classify hx)
  | ok no =>
    rw [hx] at h
    exact pyIntV_error_classify h

/-- C6 amended: the rate, fee, cashback and boolean formatters are total —
they always return a string; the period and amount formatters either
return a string or propagate `OverflowError` (raised by `int()` on an
infinite float, which the `except (ValueError, TypeError)` handler does
not catch) — no other exception ever escapes any formatter. -/
theorem c6_amended_formatters_total (v : Value) :
    isOkE (formatRate v) = true ∧ isOkE (formatFee v) = true ∧
    isOkE (formatCashback v) = true ∧ isOkE (formatBool v) = true ∧
    (isOkE (formatPeriod v) = true ∨
      formatPeriod v = .error .overflowError) ∧
    (isOkE (formatAmount v) = true ∨
      formatAmount v = .error .overflowError) := by
  refine ⟨?_, ?_, ?_, ?_, ?_, ?_⟩
  · simp only [formatRate]
    repeat' split
    all_goals rfl
  · simp only [formatFee]
    repeat' split
    all_goals rfl
  · simp only [formatCashback]
    repeat' split
    all_goals rfl
  · simp only [formatBool]
    repeat' split
    all_goals rfl
  · simp only [formatPeriod]
    split
    · left; rfl
    · split
      · left; rfl
      · split
        · left; rfl
        · rename_i e hatt
          rcases intAttempt_classify _ _ hatt with rfl | rfl | rfl
          · left; rfl
          · left; rfl
          · right; rfl
  · simp only [formatAmount]
    split
    · left; rfl
    · split
      · left; rfl
      · split
        · left; rfl
        · split
          · left; rfl
          · rename_i e hatt
            rcases intAttempt_classify _ _ hatt with rfl | rfl | rfl
            · left; rfl
            · left; rfl
            · right; rfl

/-- C6 counterexample: `float('inf')` (JSON `Infinity`) reaches `int()` in
the period and amount formatters, and the resulting `OverflowError` is not
caught by `except (ValueError, TypeError)` — the exception propagates. -/
theorem c6_counterexample :
    formatPeriod (.vFloat (.inf false)) = .error .overflowError ∧
    formatAmount (.vFloat (.inf false)) = .error .overflowError := by
  decide

/-- Witness for C8: the boundary scores on concrete deposit records — a
fully populated record scores exactly 1, the empty record scores exactly
0. -/
theorem c8_witness :
    getDataCompletenessScore
        [(("название".toList : PyStr), Value.vStr "Вклад".toList),
         ("ставка".toList, Value.vStr "18%".toList),
         ("срок".toList, Value.vStr "12 месяцев".toList),
         ("минимальная_сумма".toList, Value.vInt 1000),
         ("максимальная_сумма".toList, Value.vInt 1000000),
         ("пополнение".toList, Value.vStr "Да".toList),
         ("досрочное_снятие".toList, Value.vStr "Да".toList),
         ("страхование".toList, Value.vStr "Да".toList)]
        ("deposit".toList) = 1 ∧
    getDataCompletenessScore [] ("deposit".toList) = 0 := by
  constructor
  · exact (c8_amended_completeness_bounds _ _).2 (by decide)
  · exact (c8_amended_completeness_bounds _ _).1 (by decide)

end BankDash
